import Mathlib

/-!
# quic-proxy-tunnel: stream dispatch, UDP framing, dialer and relay

A shallow embedding of `server/server.go`, `server/auth.go` and
`common/quic.go`.

Conventions of the embedding.

* A Go `string` / `[]byte` is a `List Nat` of byte values.  Conversions to
  `byte` in the source are written `% 256`.
* The content a peer sends on a stream is a finite byte list followed by EOF;
  a blocking read that cannot be satisfied from it fails.
* Calls into the network (dial, open stream, send, receive, close) are
  outcomes supplied by an environment record.  Every outcome may depend on the
  whole history of calls made so far; the history is the event trace that the
  embedded function extends.
-/

namespace QuicProxy

/-- A Go string or byte slice: the list of its byte values. -/
abbrev Bytes := List Nat

/-- The Go conversion `byte(x)` of a non-negative `int`. -/
def toByte (x : Nat) : Nat := x % 256

/-- The reserved handshake literal `"__UDP__"` (7 bytes). -/
def udpLiteral : Bytes := [95, 95, 85, 68, 80, 95, 95]

/-! ## `bufio.Reader` over a finite stream -/

/-- `reader.ReadString(delim)`: the bytes up to and including the first
`delim`, and the unread remainder; `none` when EOF comes first (the call
returns a non-nil error). -/
def readString (delim : Nat) : Bytes → Option (Bytes × Bytes)
  | [] => none
  | b :: s =>
    if b = delim then some ([b], s)
    else
      match readString delim s with
      | none => none
      | some (line, rest) => some (b :: line, rest)

/-- `io.ReadFull(reader, buf)` with `len(buf) = n`: the next `n` bytes and the
unread remainder; `none` (EOF / unexpected EOF) when fewer than `n` bytes are
left.  A zero-length buffer is filled without reading. -/
def readFull (n : Nat) (s : Bytes) : Option (Bytes × Bytes) :=
  if n ≤ s.length then some (s.take n, s.drop n) else none

/-! ## `strings.TrimSpace`

Go trims every leading and trailing code point that `unicode.IsSpace`
accepts, decoding the string as UTF-8.  Bytes that are not part of a valid
encoding decode to U+FFFD, which is not a space, so a space is trimmed exactly
when its UTF-8 encoding stands at the end being trimmed. -/

/-- Remove leading white space: the six ASCII spaces, U+0085, U+00A0, U+1680,
U+2000..U+200A, U+2028, U+2029, U+202F, U+205F and U+3000. -/
def trimLeftSpace : Bytes → Bytes
  | [] => []
  | [a] => if a = 9 ∨ a = 10 ∨ a = 11 ∨ a = 12 ∨ a = 13 ∨ a = 32 then [] else [a]
  | [a, b] =>
    if a = 9 ∨ a = 10 ∨ a = 11 ∨ a = 12 ∨ a = 13 ∨ a = 32 then trimLeftSpace [b]
    else if a = 0xC2 ∧ (b = 0x85 ∨ b = 0xA0) then []
    else [a, b]
  | a :: b :: c :: t =>
    if a = 9 ∨ a = 10 ∨ a = 11 ∨ a = 12 ∨ a = 13 ∨ a = 32 then trimLeftSpace (b :: c :: t)
    else if a = 0xC2 ∧ (b = 0x85 ∨ b = 0xA0) then trimLeftSpace (c :: t)
    else if (a = 0xE1 ∧ b = 0x9A ∧ c = 0x80)
        ∨ (a = 0xE2 ∧ b = 0x80 ∧ ((0x80 ≤ c ∧ c ≤ 0x8A) ∨ c = 0xA8 ∨ c = 0xA9 ∨ c = 0xAF))
        ∨ (a = 0xE2 ∧ b = 0x81 ∧ c = 0x9F)
        ∨ (a = 0xE3 ∧ b = 0x80 ∧ c = 0x80) then trimLeftSpace t
    else a :: b :: c :: t

/-- Remove trailing white space; the argument is the string reversed, so the
encodings are matched last byte first. -/
def trimLeftSpaceRev : Bytes → Bytes
  | [] => []
  | [a] => if a = 9 ∨ a = 10 ∨ a = 11 ∨ a = 12 ∨ a = 13 ∨ a = 32 then [] else [a]
  | [b, a] =>
    if b = 9 ∨ b = 10 ∨ b = 11 ∨ b = 12 ∨ b = 13 ∨ b = 32 then trimLeftSpaceRev [a]
    else if a = 0xC2 ∧ (b = 0x85 ∨ b = 0xA0) then []
    else [b, a]
  | c :: b :: a :: t =>
    if c = 9 ∨ c = 10 ∨ c = 11 ∨ c = 12 ∨ c = 13 ∨ c = 32 then trimLeftSpaceRev (b :: a :: t)
    else if b = 0xC2 ∧ (c = 0x85 ∨ c = 0xA0) then trimLeftSpaceRev (a :: t)
    else if (a = 0xE1 ∧ b = 0x9A ∧ c = 0x80)
        ∨ (a = 0xE2 ∧ b = 0x80 ∧ ((0x80 ≤ c ∧ c ≤ 0x8A) ∨ c = 0xA8 ∨ c = 0xA9 ∨ c = 0xAF))
        ∨ (a = 0xE2 ∧ b = 0x81 ∧ c = 0x9F)
        ∨ (a = 0xE3 ∧ b = 0x80 ∧ c = 0x80) then trimLeftSpaceRev t
    else c :: b :: a :: t

/-- `strings.TrimSpace(s)`. -/
def trimSpace (s : Bytes) : Bytes :=
  (trimLeftSpaceRev (trimLeftSpace s).reverse).reverse

/-! ## Server: handshake read and dispatch (`server.Run`, per-stream closure) -/

/-- The branch the per-stream closure takes after the handshake line. -/
inductive Branch where
  /-- `targetAddr == "__UDP__"`: the UDP request loop. -/
  | udpRelay
  /-- Otherwise: `net.Dial("tcp", targetAddr)`. -/
  | tcpDial (targetAddr : Bytes)
  deriving DecidableEq, Repr

/-- The test `if targetAddr == "__UDP__"` on the trimmed line (line 123). -/
def dispatch (targetAddr : Bytes) : Branch :=
  if targetAddr = udpLiteral then .udpRelay else .tcpDial targetAddr

/-- Lines 114-123 and 189: read the handshake line, trim it, choose the
branch.  `none` is the early return on a read error; otherwise the branch and
the bytes left in the reader. -/
def route (stream : Bytes) : Option (Branch × Bytes) :=
  match readString 10 stream with
  | none => none
  | some (line, rest) => some (dispatch (trimSpace line), rest)

/-! ## Server: UDP request frame decoder (`server.Run`, lines 125-153) -/

/-- The `io.ReadFull` of the request decoder that failed. -/
inductive FrameStep where
  | destLen
  | destAddr
  | dataLen
  | data
  deriving DecidableEq, Repr

/-- Result of reading one request frame from the reader. -/
inductive ReadFrame where
  /-- A `ReadFull` returned an error; the closure logs and returns. -/
  | failed (step : FrameStep)
  /-- All four reads succeeded: `destAddr`, `data`, and the unread bytes. -/
  | frame (destAddr data rest : Bytes)
  deriving DecidableEq, Repr

/-- The four `io.ReadFull` steps of the UDP loop:
`[1 byte destLen][destLen bytes destAddr][2 bytes dataLen, big endian][dataLen bytes data]`,
with `dataLen := int(lenBuf[0])<<8 | int(lenBuf[1])` and
`destAddr := string(destBuf)`. -/
def decodeRequest (reader : Bytes) : ReadFrame :=
  match readFull 1 reader with
  | none => .failed .destLen
  | some (head, r1) =>
    let destLen := head.getD 0 0
    match readFull destLen r1 with
    | none => .failed .destAddr
    | some (destBuf, r2) =>
      match readFull 2 r2 with
      | none => .failed .dataLen
      | some (lenBuf, r3) =>
        let dataLen := (lenBuf.getD 0 0) <<< 8 ||| (lenBuf.getD 1 0)
        match readFull dataLen r3 with
        | none => .failed .data
        | some (data, r4) => .frame destBuf data r4

/-! ## Client: `QuicDialer` (`common/quic.go`) -/

/-- A Go `error`, identified with its message `err.Error()`. -/
abbrev GoError := Bytes

/-- The constant `KQuicProxy = "quic-proxy"`. -/
def KQuicProxy : Bytes := [113, 117, 105, 99, 45, 112, 114, 111, 120, 121]

/-- The fields of `tls.Config` that `Dial` sets. -/
structure TlsConfig where
  InsecureSkipVerify : Bool
  NextProtos : List Bytes
  deriving DecidableEq, Repr

/-- Identity of a `quic.Connection` object. -/
abbrev ConnId := Nat

/-- Identity of a `quic.Stream` object. -/
abbrev StreamId := Nat

/-- One call made by `Dial` into quic-go, with its outcome. -/
inductive DialEvent where
  /-- `quic.DialAddr(ctx, serverAddr, cfg, nil)` returned the new connection `conn`. -/
  | dialOk (serverAddr : Bytes) (cfg : TlsConfig) (conn : ConnId)
  /-- `quic.DialAddr(ctx, serverAddr, cfg, nil)` returned `err`. -/
  | dialFailed (serverAddr : Bytes) (cfg : TlsConfig) (err : GoError)
  /-- `conn.OpenStreamSync(ctx)` returned the new stream `stream`. -/
  | openOk (conn : ConnId) (stream : StreamId)
  /-- `conn.OpenStreamSync(ctx)` returned `err`. -/
  | openFailed (conn : ConnId) (err : GoError)
  /-- `conn.CloseWithError(code, msg)` was called and returned `err`. -/
  | closeWithError (conn : ConnId) (code : Nat) (msg : Bytes) (err : Option GoError)
  /-- `stream.Write(data)` was called and returned `err`. -/
  | write (stream : StreamId) (data : Bytes) (err : Option GoError)
  /-- `stream.Close()` was called. -/
  | streamClose (stream : StreamId)
  deriving DecidableEq, Repr

/-- The outcomes of the quic-go calls.  `none` is a nil error.  Each outcome
is a function of the calls made so far and of the arguments of the call. -/
structure Transport where
  dialAddr : List DialEvent → Bytes → TlsConfig → Option GoError
  openStreamSync : List DialEvent → ConnId → Option GoError
  closeWithError : List DialEvent → ConnId → Nat → Bytes → Option GoError
  write : List DialEvent → StreamId → Bytes → Option GoError

/-- The struct `QuicDialer`; `conn = none` is the nil interface value.  The
embedded mutex serialises `Dial`, so calls are modelled one after another. -/
structure QuicDialer where
  skipCertVerify : Bool
  conn : Option ConnId
  deriving DecidableEq, Repr

/-- `NewQuicDialer(skipCertVerify)`. -/
def NewQuicDialer (skipCertVerify : Bool) : QuicDialer :=
  { skipCertVerify := skipCertVerify, conn := none }

/-- The struct `QuicStream`: a stream and its parent connection. -/
structure QuicStream where
  conn : ConnId
  stream : StreamId
  deriving DecidableEq, Repr

/-- The pair `(net.Conn, error)` returned by `Dial`. -/
inductive DialResult where
  | ok (s : QuicStream)
  | error (err : GoError)
  deriving DecidableEq, Repr

/-- What a call of `Dial` leaves behind: its return value, the dialer and the
extended trace. -/
structure DialReturn where
  result : DialResult
  qd : QuicDialer
  trace : List DialEvent
  deriving DecidableEq, Repr

/-- Lines 178-187 of `Dial`: write `targetAddr + "\n"` on `stream`; on a write
error close the stream and return the error, else return the `QuicStream`. -/
def dialHandshake (tp : Transport) (tr : List DialEvent) (qd : QuicDialer)
    (conn : ConnId) (stream : StreamId) (targetAddr : Bytes) : DialReturn :=
  match tp.write tr stream (targetAddr ++ [10]) with
  | some err =>
    { result := .error err, qd := qd,
      trace := tr ++ [.write stream (targetAddr ++ [10]) (some err), .streamClose stream] }
  | none =>
    { result := .ok { conn := conn, stream := stream }, qd := qd,
      trace := tr ++ [.write stream (targetAddr ++ [10]) none] }

/-- Lines 147-187 of `Dial`, entered with `qd.conn = conn` non-nil: open a
stream; on failure close the connection with code 2021, dial again with
`InsecureSkipVerify: true`, store the new connection and open a stream on it;
then the handshake write.  A new connection or stream object is identified by
the position of the call that created it in the trace. -/
def dialOpen (tp : Transport) (tr : List DialEvent) (qd : QuicDialer)
    (conn : ConnId) (serverAddr targetAddr : Bytes) : DialReturn :=
  match tp.openStreamSync tr conn with
  | none =>
    dialHandshake tp (tr ++ [.openOk conn tr.length]) qd conn tr.length targetAddr
  | some err =>
    let tr1 := tr ++ [.openFailed conn err]
    match tp.closeWithError tr1 conn 2021 err with
    | some cerr =>
      { result := .error cerr, qd := qd,
        trace := tr1 ++ [.closeWithError conn 2021 err (some cerr)] }
    | none =>
      let tr2 := tr1 ++ [.closeWithError conn 2021 err none]
      let cfg : TlsConfig := { InsecureSkipVerify := true, NextProtos := [KQuicProxy] }
      match tp.dialAddr tr2 serverAddr cfg with
      | some derr =>
        { result := .error derr, qd := qd,
          trace := tr2 ++ [.dialFailed serverAddr cfg derr] }
      | none =>
        let conn2 : ConnId := tr2.length
        let tr3 := tr2 ++ [.dialOk serverAddr cfg conn2]
        let qd2 : QuicDialer := { qd with conn := some conn2 }
        match tp.openStreamSync tr3 conn2 with
        | some oerr =>
          { result := .error oerr, qd := qd2,
            trace := tr3 ++ [.openFailed conn2 oerr] }
        | none =>
          dialHandshake tp (tr3 ++ [.openOk conn2 tr3.length]) qd2 conn2 tr3.length targetAddr

/-- The method `(qd *QuicDialer) Dial(serverAddr, targetAddr)`: when no
connection is held, dial one with `InsecureSkipVerify: qd.skipCertVerify` and
store it (a dial error is returned at once); then `dialOpen`. -/
def Dial (tp : Transport) (tr : List DialEvent) (qd : QuicDialer)
    (serverAddr targetAddr : Bytes) : DialReturn :=
  match qd.conn with
  | none =>
    let cfg : TlsConfig :=
      { InsecureSkipVerify := qd.skipCertVerify, NextProtos := [KQuicProxy] }
    match tp.dialAddr tr serverAddr cfg with
    | some err =>
      { result := .error err, qd := qd, trace := tr ++ [.dialFailed serverAddr cfg err] }
    | none =>
      dialOpen tp (tr ++ [.dialOk serverAddr cfg tr.length])
        { qd with conn := some tr.length } tr.length serverAddr targetAddr
  | some conn => dialOpen tp tr qd conn serverAddr targetAddr

/-- A sequence of `Dial` calls on one manager, each given as
`(serverAddr, targetAddr)`, run one after another; the state is the dialer and
the trace. -/
def dialSeq (tp : Transport) :
    List (Bytes × Bytes) → QuicDialer × List DialEvent → QuicDialer × List DialEvent
  | [], st => st
  | (serverAddr, targetAddr) :: calls, st =>
    let r := Dial tp st.2 st.1 serverAddr targetAddr
    dialSeq tp calls (r.qd, r.trace)

/-! ### Observations on a dialer trace -/

/-- Number of `quic.DialAddr` calls in a trace. -/
def dialAttempts (tr : List DialEvent) : Nat :=
  tr.countP fun e => match e with
    | .dialOk _ _ _ => true
    | .dialFailed _ _ _ => true
    | _ => false

/-- Number of connections established (successful `quic.DialAddr`) in a trace. -/
def dialsEstablished (tr : List DialEvent) : Nat :=
  tr.countP fun e => match e with
    | .dialOk _ _ _ => true
    | _ => false

/-- Number of `OpenStreamSync` calls in a trace. -/
def openAttempts (tr : List DialEvent) : Nat :=
  tr.countP fun e => match e with
    | .openOk _ _ => true
    | .openFailed _ _ => true
    | _ => false

/-- The connections on which `CloseWithError` was issued in a trace. -/
def closedConns (tr : List DialEvent) : List ConnId :=
  tr.filterMap fun e => match e with
    | .closeWithError conn _ _ _ => some conn
    | _ => none

/-- A transport whose call fails with `err` exactly when the number of calls
made before it is in `failAt`, and succeeds otherwise. -/
def scripted (failAt : List Nat) (err : GoError) : Transport where
  dialAddr := fun tr _ _ => if tr.length ∈ failAt then some err else none
  openStreamSync := fun tr _ => if tr.length ∈ failAt then some err else none
  closeWithError := fun tr _ _ _ => if tr.length ∈ failAt then some err else none
  write := fun tr _ _ => if tr.length ∈ failAt then some err else none

/-- The server address `"s:1"` used in the concrete scenarios. -/
def exServer : Bytes := [115, 58, 49]

/-- The target address `"t:80"` used in the concrete scenarios. -/
def exTarget : Bytes := [116, 58, 56, 48]

/-- The error message `"x"` used in the concrete scenarios. -/
def exErr : GoError := [120]

/-! ## Server: UDP relay loop (`server.Run`, lines 123-187) -/

/-- Identity of a `*net.UDPConn` object. -/
abbrev SockId := Nat

/-- One call made by the UDP loop, with its outcome. -/
inductive UdpEvent where
  /-- `net.ResolveUDPAddr("udp", destAddr)` was called and returned `err`. -/
  | resolve (destAddr : Bytes) (err : Option GoError)
  /-- `net.DialUDP("udp", nil, udpAddr)` returned the new socket `sock`. -/
  | dialOk (destAddr : Bytes) (sock : SockId)
  /-- `net.DialUDP("udp", nil, udpAddr)` returned `err`. -/
  | dialFailed (destAddr : Bytes) (err : GoError)
  /-- `udpConn.Write(data)` was called and returned `err`. -/
  | send (sock : SockId) (data : Bytes) (err : Option GoError)
  /-- `udpConn.SetReadDeadline(time.Now().Add(seconds * time.Second))`. -/
  | setReadDeadline (sock : SockId) (seconds : Nat)
  /-- `udpConn.ReadFrom(respBuf)` put `resp` into the buffer and returned
  `(len resp, _, err)`. -/
  | readFrom (sock : SockId) (resp : Bytes) (err : Option GoError)
  /-- `conn.Write(data)` on the QUIC stream (its result is discarded). -/
  | streamWrite (data : Bytes)
  /-- `udpConn.Close()`. -/
  | sockClose (sock : SockId)
  /-- The deferred `conn.Close()` of the QUIC stream. -/
  | streamClose
  deriving DecidableEq, Repr

/-- The outcomes of the `net` calls of the UDP loop, each a function of the
calls made so far and of the arguments.  `readFrom` gives the datagram that
arrives (empty when none does) and the error; an expired read deadline is an
error outcome. -/
structure UdpNet where
  resolveUDPAddr : List UdpEvent → Bytes → Option GoError
  dialUDP : List UdpEvent → Bytes → Option GoError
  write : List UdpEvent → SockId → Bytes → Option GoError
  readFrom : List UdpEvent → SockId → Bytes × Option GoError

/-- Why the UDP loop returned. -/
inductive UdpExit where
  /-- One of the four `io.ReadFull` calls failed. -/
  | readFailed (step : FrameStep)
  /-- `net.ResolveUDPAddr` failed. -/
  | resolveFailed
  /-- `net.DialUDP` failed. -/
  | dialFailed
  /-- `udpConn.Write` failed. -/
  | sendFailed
  deriving DecidableEq, Repr

/-- Result of handling one decoded request (lines 153-184). -/
inductive Exchange where
  /-- The body reached `udpConn.Close()` on line 184; the loop goes on. -/
  | next (trace : List UdpEvent)
  /-- The body executed `return`. -/
  | exit (why : UdpExit) (trace : List UdpEvent)
  deriving DecidableEq, Repr

/-- The trace at the end of the handling of a request. -/
def Exchange.trace : Exchange → List UdpEvent
  | .next tr => tr
  | .exit _ tr => tr

/-- Lines 171-184: receive into the 65535-byte buffer under the 2-second
deadline; when `err == nil && n > 0` write `[byte(n >> 8), byte(n & 0xff)]`
and then `respBuf[:n]` to the stream; close the socket. -/
def udpReceive (net : UdpNet) (tr : List UdpEvent) (sock : SockId) : List UdpEvent :=
  let tr1 := tr ++ [.setReadDeadline sock 2]
  let resp := (net.readFrom tr1 sock).1.take 65535
  let err := (net.readFrom tr1 sock).2
  let n := resp.length
  let tr2 := tr1 ++ [.readFrom sock resp err]
  if err = none ∧ n > 0 then
    tr2 ++ [.streamWrite [toByte (n >>> 8), toByte (n &&& 0xff)],
            .streamWrite (resp.take n), .sockClose sock]
  else
    tr2 ++ [.sockClose sock]

/-- Lines 153-184: resolve the destination, open a socket for this request,
send the data, then `udpReceive`.  A resolve or dial error returns; a send
error closes the socket and returns. -/
def udpExchange (net : UdpNet) (tr : List UdpEvent) (destAddr data : Bytes) : Exchange :=
  match net.resolveUDPAddr tr destAddr with
  | some err => .exit .resolveFailed (tr ++ [.resolve destAddr (some err)])
  | none =>
    let tr1 := tr ++ [.resolve destAddr none]
    match net.dialUDP tr1 destAddr with
    | some err => .exit .dialFailed (tr1 ++ [.dialFailed destAddr err])
    | none =>
      let sock : SockId := tr1.length
      let tr2 := tr1 ++ [.dialOk destAddr sock]
      match net.write tr2 sock data with
      | some err =>
        .exit .sendFailed (tr2 ++ [.send sock data (some err), .sockClose sock])
      | none => .next (udpReceive net (tr2 ++ [.send sock data none]) sock)

/-- The `for` loop of lines 125-185, run for at most `fuel` iterations on the
bytes left in the reader.  The result is the reason of the `return`, the bytes
still unread and the trace; `none` when the fuel runs out. -/
def udpLoop (net : UdpNet) : Nat → Bytes → List UdpEvent →
    Option (UdpExit × Bytes × List UdpEvent)
  | 0, _, _ => none
  | fuel + 1, reader, tr =>
    match decodeRequest reader with
    | .failed step => some (.readFailed step, reader, tr)
    | .frame destAddr data rest =>
      match udpExchange net tr destAddr data with
      | .exit why tr1 => some (why, rest, tr1)
      | .next tr1 => udpLoop net fuel rest tr1

/-- The UDP branch of the per-stream closure: the loop on the bytes after the
handshake line, then the deferred `conn.Close()`.  Every iteration that goes
on consumes at least three bytes, so `len reader + 1` iterations suffice. -/
def udpRelay (net : UdpNet) (reader : Bytes) : Option (UdpExit × Bytes × List UdpEvent) :=
  match udpLoop net (reader.length + 1) reader [] with
  | none => none
  | some (why, rest, tr) => some (why, rest, tr ++ [.streamClose])

/-- The bytes written to the QUIC stream in a trace, in order. -/
def streamOutput (tr : List UdpEvent) : Bytes :=
  (tr.filterMap fun e => match e with
    | .streamWrite data => some data
    | _ => none).flatten

/-- The failed call that an exit reason reports is in the trace. -/
def ExitRecorded (why : UdpExit) (tr : List UdpEvent) : Prop :=
  match why with
  | .readFailed _ => True
  | .resolveFailed => ∃ d e, UdpEvent.resolve d (some e) ∈ tr
  | .dialFailed => ∃ d e, UdpEvent.dialFailed d e ∈ tr
  | .sendFailed => ∃ s p e, UdpEvent.send s p (some e) ∈ tr

/-- The exit reason of a session is borne out by the run: after
`readFailed step` the decoder fails at `step` on the bytes left unread; after
the other reasons the trace ends with the failed resolve, the failed socket
open, or the failed send and the close of its socket. -/
def ExitJustified (why : UdpExit) (unread : Bytes) (tr : List UdpEvent) : Prop :=
  match why with
  | .readFailed step => decodeRequest unread = .failed step
  | .resolveFailed => ∃ pre d e, tr = pre ++ [UdpEvent.resolve d (some e)]
  | .dialFailed => ∃ pre d e, tr = pre ++ [UdpEvent.dialFailed d e]
  | .sendFailed => ∃ pre s p e, tr = pre ++ [UdpEvent.send s p (some e), UdpEvent.sockClose s]

/-- A network on which the `k`-th call fails with `err` when `k` is in
`failAt`, and on which every receive yields the datagram `reply`. -/
def scriptedNet (failAt : List Nat) (err : GoError) (reply : Bytes) : UdpNet where
  resolveUDPAddr := fun tr _ => if tr.length ∈ failAt then some err else none
  dialUDP := fun tr _ => if tr.length ∈ failAt then some err else none
  write := fun tr _ _ => if tr.length ∈ failAt then some err else none
  readFrom := fun tr _ => (reply, if tr.length ∈ failAt then some err else none)

/-- The request frame for destination `"a:1"` and data `[7, 8]`. -/
def exFrame : Bytes := [3, 97, 58, 49, 0, 2, 7, 8]

/-! ## Server: Basic authentication (`server/auth.go`) -/

/-- The type `http.Header`: canonical key and its values. -/
abbrev HttpHeader := List (Bytes × List Bytes)

/-- `h.Get(key)` for a canonical `key`: the first value, or `""`. -/
def HttpHeader.Get (h : HttpHeader) (key : Bytes) : Bytes :=
  match h.lookup key with
  | some (v :: _) => v
  | _ => []

/-- `h.Del(key)` for a canonical `key`. -/
def HttpHeader.Del (h : HttpHeader) (key : Bytes) : HttpHeader :=
  h.filter fun kv => kv.1 ≠ key

/-- The constant `common.ProxyAuthHeader = "Proxy-Authorization"`. -/
def ProxyAuthHeader : Bytes :=
  [80, 114, 111, 120, 121, 45, 65, 117, 116, 104, 111, 114, 105, 122, 97, 116, 105, 111, 110]

/-- The literal `"Basic"`. -/
def basicLiteral : Bytes := [66, 97, 115, 105, 99]

/-- The variable `unauthorizedMsg = []byte("404 not found")`. -/
def unauthorizedMsg : Bytes := [52, 48, 52, 32, 110, 111, 116, 32, 102, 111, 117, 110, 100]

/-- The parts of `http.Request` the handlers touch: the header; `Method` and
`Host` stand for the rest. -/
structure Request where
  Method : Bytes
  Host : Bytes
  Header : HttpHeader
  deriving DecidableEq, Repr

/-- The fields of `http.Response` set by `BasicUnauthorized`. -/
structure Response where
  StatusCode : Nat
  ProtoMajor : Nat
  ProtoMinor : Nat
  Request : Request
  Header : HttpHeader
  Body : Bytes
  ContentLength : Nat
  deriving DecidableEq, Repr

/-- `BasicUnauthorized(req)`. -/
def BasicUnauthorized (req : Request) : Response :=
  { StatusCode := 404, ProtoMajor := 1, ProtoMinor := 1, Request := req, Header := [],
    Body := unauthorizedMsg, ContentLength := unauthorizedMsg.length }

/-- The part of `s` before the first `sep` and the part after it; `none` when
`sep` does not occur. -/
def cutAt (sep : Nat) : Bytes → Option (Bytes × Bytes)
  | [] => none
  | b :: t =>
    if b = sep then some ([], t)
    else
      match cutAt sep t with
      | none => none
      | some (before, after) => some (b :: before, after)

/-- `strings.SplitN(s, sep, 2)` for a one-byte separator: `[s]` when `sep`
does not occur, else the two parts around its first occurrence. -/
def splitN2 (s : Bytes) (sep : Nat) : List Bytes :=
  match cutAt sep s with
  | none => [s]
  | some (before, after) => [before, after]

/-- The function `auth(req, f)`, with the request as it is left (the header
`Proxy-Authorization` deleted).  `decodeString` is
`base64.StdEncoding.DecodeString`, `none` being a decoding error. -/
def auth (decodeString : Bytes → Option Bytes) (req : Request)
    (f : Bytes → Bytes → Bool) : Bool × Request :=
  let authheader := splitN2 (req.Header.Get ProxyAuthHeader) 32
  let req1 : Request := { req with Header := req.Header.Del ProxyAuthHeader }
  if authheader.length ≠ 2 ∨ authheader.getD 0 [] ≠ basicLiteral then (false, req1)
  else
    match decodeString (authheader.getD 1 []) with
    | none => (false, req1)
    | some userpassraw =>
      let userpass := splitN2 userpassraw 58
      if userpass.length ≠ 2 then (false, req1)
      else (f (userpass.getD 0 []) (userpass.getD 1 []), req1)

/-- The handler returned by `Basic(f)`: the pair `(*http.Request,
*http.Response)`, `none` being nil. -/
def Basic (decodeString : Bytes → Option Bytes) (f : Bytes → Bytes → Bool)
    (req : Request) : Option Request × Option Response :=
  let r := auth decodeString req f
  if !r.1 then (none, some (BasicUnauthorized r.2))
  else (some { r.2 with Header := r.2.Header.Del ProxyAuthHeader }, none)

/-- The fields of `goproxy.ProxyCtx` the handlers touch. -/
structure ProxyCtx where
  Req : Request
  Resp : Option Response
  deriving DecidableEq, Repr

/-- The values `goproxy.OkConnect` and `goproxy.RejectConnect`. -/
inductive ConnectAction where
  | OkConnect
  | RejectConnect
  deriving DecidableEq, Repr

/-- The handler returned by `BasicConnect(f)`: the pair `(*ConnectAction,
string)` and the context as it is left. -/
def BasicConnect (decodeString : Bytes → Option Bytes) (f : Bytes → Bytes → Bool)
    (host : Bytes) (ctx : ProxyCtx) : (ConnectAction × Bytes) × ProxyCtx :=
  let r := auth decodeString ctx.Req f
  if !r.1 then
    ((.RejectConnect, host), { Req := r.2, Resp := some (BasicUnauthorized r.2) })
  else
    ((.OkConnect, host),
      { Req := { r.2 with Header := r.2.Header.Del ProxyAuthHeader }, Resp := ctx.Resp })

/-- A request without a `Proxy-Authorization` header. -/
def exRequest : Request :=
  { Method := [71, 69, 84], Host := exTarget, Header := [([72, 111, 115, 116], [exTarget])] }

/-! ## goproxy: what the proxy does with the handlers' results

The handlers of `auth.go` are written against goproxy, whose contract for
them is: request handlers run in the order installed; the first one that
returns a non-nil response ends the run, the proxy then "will skip sending
any requests, and will simply return the response to the client"; when every
handler returns `req, nil` the proxy sends the last `req` to the destination.
For CONNECT the first handler that returns a non-nil action decides: on
`OkConnect` the proxy dials the host, on `RejectConnect` it writes `ctx.Resp`
to the client when it is non-nil, closes the client connection and dials
nothing. -/

/-- goproxy's `ReqHandler`, for handlers that, like `Basic`, do not use the
context. -/
abbrev ReqHandler := Request → Option Request × Option Response

/-- goproxy's `HttpsHandler`; the action `none` is a nil `*ConnectAction`. -/
abbrev HttpsHandler := Bytes → ProxyCtx → (Option ConnectAction × Bytes) × ProxyCtx

/-- The handler lists of `goproxy.ProxyHttpServer`. -/
structure ProxyHttpServer where
  reqHandlers : List ReqHandler
  httpsHandlers : List HttpsHandler

/-- `goproxy.NewProxyHttpServer()`: no handler installed. -/
def NewProxyHttpServer : ProxyHttpServer :=
  { reqHandlers := [], httpsHandlers := [] }

/-- `ProxyBasicAuth(proxy, f)`: `proxy.OnRequest().Do(Basic(f))` and
`proxy.OnRequest().HandleConnect(BasicConnect(f))` append the two handlers. -/
def ProxyBasicAuth (decodeString : Bytes → Option Bytes) (proxy : ProxyHttpServer)
    (f : Bytes → Bytes → Bool) : ProxyHttpServer :=
  { reqHandlers := proxy.reqHandlers ++ [Basic decodeString f],
    httpsHandlers := proxy.httpsHandlers ++
      [fun host ctx =>
        ((some (BasicConnect decodeString f host ctx).1.1,
          (BasicConnect decodeString f host ctx).1.2),
         (BasicConnect decodeString f host ctx).2)] }

/-- What the proxy does with a request after the handlers have run. -/
inductive ProxyAction where
  /-- The request is sent on: the transport dials the target. -/
  | roundTrip (req : Request)
  /-- A handler's response is returned to the client; nothing is sent on. -/
  | respond (resp : Response)
  /-- CONNECT accepted: the proxy dials `host`. -/
  | connectDial (host : Bytes)
  /-- CONNECT rejected: `ctx.Resp` is written to the client when non-nil and
  the client connection is closed. -/
  | rejectConnect (resp : Option Response)
  /-- A handler returned `nil, nil`: there is no request left to send. -/
  | noRequest
  deriving DecidableEq, Repr

/-- The loop of `filterRequest`: the handlers in order, stopping at the first
non-nil response. -/
def filterRequest : List ReqHandler → Request → Option Request × Option Response
  | [], r => (some r, none)
  | h :: hs, r =>
    match h r with
    | (req, some resp) => (req, some resp)
    | (some req, none) => filterRequest hs req
    | (none, none) => (none, none)

/-- A proxy request (not CONNECT) served by the proxy. -/
def serveRequest (proxy : ProxyHttpServer) (req : Request) : ProxyAction :=
  match filterRequest proxy.reqHandlers req with
  | (_, some resp) => .respond resp
  | (some r, none) => .roundTrip r
  | (none, none) => .noRequest

/-- The loop over the CONNECT handlers: the first non-nil action decides;
with none the default is `OkConnect` and the requested host. -/
def runConnectHandlers : List HttpsHandler → Bytes → ProxyCtx →
    (ConnectAction × Bytes) × ProxyCtx
  | [], host, ctx => ((.OkConnect, host), ctx)
  | h :: hs, host, ctx =>
    match h host ctx with
    | ((some todo, newhost), ctx1) => ((todo, newhost), ctx1)
    | ((none, _), ctx1) => runConnectHandlers hs host ctx1

/-- A CONNECT request for `host` served by the proxy. -/
def serveConnect (proxy : ProxyHttpServer) (host : Bytes) (req : Request) : ProxyAction :=
  match runConnectHandlers proxy.httpsHandlers host { Req := req, Resp := none } with
  | ((.OkConnect, newhost), _) => .connectDial newhost
  | ((.RejectConnect, _), ctx1) => .rejectConnect ctx1.Resp

/-- The targets dialed by an action of the proxy. -/
def targetDials : ProxyAction → List Bytes
  | .roundTrip req => [req.Host]
  | .connectDial host => [host]
  | _ => []

/-- The credential check that accepts only `("user", "secret")`. -/
def exCheck (user passwd : Bytes) : Bool :=
  user = [117, 115, 101, 114] ∧ passwd = [115, 101, 99, 114, 101, 116]

/-- A request carrying `Proxy-Authorization: Basic <token>`. -/
def exRequestWith (token : Bytes) : Request :=
  { Method := [71, 69, 84], Host := exTarget,
    Header := [(ProxyAuthHeader, [basicLiteral ++ 32 :: token])] }

/-! ## Server: TCP relay (`server.Run`, lines 189-204)

Two goroutines run after the target is dialed.  The spawned one copies
stream to destination, logs and ends.  The closure itself copies destination
to stream, logs and returns, which runs the deferred `remote.Close()` and
`conn.Close()`.  A state records which copy has returned and what is closed;
the steps are the returns of the two `io.Copy` calls, in any order. -/

/-- State of one TCP relay session. -/
structure RelayState where
  /-- The spawned goroutine: `io.Copy(remote, reader)` has returned. -/
  upReturned : Bool
  /-- The closure: `io.Copy(conn, remote)` has returned, so the closure has
  returned. -/
  downReturned : Bool
  /-- The deferred `remote.Close()` has run. -/
  remoteClosed : Bool
  /-- The deferred `conn.Close()` has run. -/
  streamClosed : Bool
  deriving DecidableEq, Repr

/-- The return of one of the two copies. -/
inductive CopyReturn where
  /-- `io.Copy(remote, reader)`, stream to destination, returns. -/
  | up
  /-- `io.Copy(conn, remote)`, destination to stream, returns. -/
  | down
  deriving DecidableEq, Repr

/-- The session right after `net.Dial` succeeded and the goroutine started. -/
def relayStart : RelayState :=
  { upReturned := false, downReturned := false, remoteClosed := false, streamClosed := false }

/-- One step.  When the upward copy returns, the goroutine logs and ends.
When the downward copy returns, the closure logs and returns, and the
deferred calls close the destination and then the stream. -/
def relayStep (s : RelayState) : CopyReturn → RelayState
  | .up => { s with upReturned := true }
  | .down => { s with downReturned := true, remoteClosed := true, streamClosed := true }

/-- The session after the copies returned in the given order. -/
def relayRun (steps : List CopyReturn) : RelayState :=
  steps.foldl relayStep relayStart

/-! ## Observations on a UDP relay run -/

/-- The request frame of the wire format,
`[1 byte destAddrLen][destAddr][2 bytes dataLen, big endian][data]`. -/
def frameBytes (destAddr data : Bytes) : Bytes :=
  [toByte destAddr.length] ++ destAddr ++
    [toByte (data.length / 256), toByte (data.length % 256)] ++ data

/-- The concatenation of the request frames of the pairs `(destAddr, data)`. -/
def framesBytes (frames : List (Bytes × Bytes)) : Bytes :=
  (frames.map fun f => frameBytes f.1 f.2).flatten

/-- The sockets opened in a trace, each with its destination, in order. -/
def socketsOpened (tr : List UdpEvent) : List (Bytes × SockId) :=
  tr.filterMap fun e => match e with
    | .dialOk destAddr sock => some (destAddr, sock)
    | _ => none

/-- The datagrams sent without error in a trace, each with its socket, in
order. -/
def datagramsSent (tr : List UdpEvent) : List (SockId × Bytes) :=
  tr.filterMap fun e => match e with
    | .send sock data none => some (sock, data)
    | _ => none

/-- The sockets closed in a trace, in order. -/
def socketsClosed (tr : List UdpEvent) : List SockId :=
  tr.filterMap fun e => match e with
    | .sockClose sock => some sock
    | _ => none

/-- The failed resolve, socket open and send calls of a trace. -/
def failedCalls (tr : List UdpEvent) : List UdpEvent :=
  tr.filter fun e => match e with
    | .resolve _ (some _) => true
    | .dialFailed _ _ => true
    | .send _ _ (some _) => true
    | _ => false

/-! # Theorems -/

/-! ## Reader and trimming lemmas -/

theorem readString_append (d : Nat) (L rest : Bytes) (h : d ∉ L) :
    readString d (L ++ d :: rest) = some (L ++ [d], rest) := by
  induction L with
  | nil => simp [readString]
  | cons a t ih =>
    have ha : a ≠ d := fun e => h (by simp [e])
    have ht : d ∉ t := fun e => h (by simp [e])
    simp [readString, ha, ih ht]

theorem trimLeftSpaceRev_newline (x : Bytes) :
    trimLeftSpaceRev (10 :: x) = trimLeftSpaceRev x := by
  match x with
  | [] => simp [trimLeftSpaceRev]
  | [a] => simp [trimLeftSpaceRev]
  | a :: b :: t => simp [trimLeftSpaceRev]



theorem trimLeftSpace_newline (L : Bytes) :
    trimLeftSpace (L ++ [10]) = if trimLeftSpace L = [] then [] else trimLeftSpace L ++ [10] := by
  induction L using trimLeftSpace.induct with
  | case1 => simp [trimLeftSpace]
  | case2 a h => simp [trimLeftSpace, h]
  | case3 a h =>
    have h1 : ¬ (a = 9 ∨ a = 10 ∨ a = 11 ∨ a = 12 ∨ a = 13 ∨ a = 32) := h
    simp [trimLeftSpace, h1]
  | case4 a b h ih =>
    have e1 : trimLeftSpace [a, b, 10] = trimLeftSpace [b, 10] := by
      rw [trimLeftSpace.eq_4, if_pos h]
    have e2 : trimLeftSpace [a, b] = trimLeftSpace [b] := by
      rw [trimLeftSpace.eq_3, if_pos h]
    show trimLeftSpace [a, b, 10] = _
    rw [e1, e2]; exact ih
  | case5 a b h1 h2 =>
    have e1 : trimLeftSpace [a, b, 10] = trimLeftSpace [10] := by
      rw [trimLeftSpace.eq_4, if_neg h1, if_pos h2]
    have e2 : trimLeftSpace [a, b] = [] := by
      rw [trimLeftSpace.eq_3, if_neg h1, if_pos h2]
    show trimLeftSpace [a, b, 10] = _
    rw [e1, e2]; simp [trimLeftSpace]
  | case6 a b h1 h2 =>
    have e2 : trimLeftSpace [a, b] = [a, b] := by
      rw [trimLeftSpace.eq_3, if_neg h1, if_neg h2]
    have h3 : ¬ (a = 0xE1 ∧ b = 0x9A ∧ 10 = 0x80
        ∨ (a = 0xE2 ∧ b = 0x80 ∧ ((0x80 ≤ 10 ∧ 10 ≤ 0x8A) ∨ 10 = 0xA8 ∨ 10 = 0xA9 ∨ 10 = 0xAF))
        ∨ (a = 0xE2 ∧ b = 0x81 ∧ 10 = 0x9F)
        ∨ (a = 0xE3 ∧ b = 0x80 ∧ 10 = 0x80)) := by omega
    have e1 : trimLeftSpace [a, b, 10] = [a, b, 10] := by
      rw [trimLeftSpace.eq_4, if_neg h1, if_neg h2, if_neg h3]
    show trimLeftSpace [a, b, 10] = _
    rw [e1, e2]; simp
  | case7 a b c t h ih =>
    have e1 : trimLeftSpace (a :: b :: c :: (t ++ [10])) = trimLeftSpace (b :: c :: (t ++ [10])) := by
      rw [trimLeftSpace.eq_4, if_pos h]
    have e2 : trimLeftSpace (a :: b :: c :: t) = trimLeftSpace (b :: c :: t) := by
      rw [trimLeftSpace.eq_4, if_pos h]
    show trimLeftSpace (a :: b :: c :: (t ++ [10])) = _
    rw [e1, e2]; exact ih
  | case8 a b c t h1 h2 ih =>
    have e2 : trimLeftSpace (a :: b :: c :: t) = trimLeftSpace (c :: t) := by
      rw [trimLeftSpace.eq_4, if_neg h1, if_pos h2]
    have e1 : trimLeftSpace (a :: b :: c :: (t ++ [10])) = trimLeftSpace (c :: (t ++ [10])) := by
      rw [trimLeftSpace.eq_4, if_neg h1, if_pos h2]
    show trimLeftSpace (a :: b :: c :: (t ++ [10])) = _
    rw [e1, e2]; exact ih
  | case9 a b c t h1 h2 h3 ih =>
    have e2 : trimLeftSpace (a :: b :: c :: t) = trimLeftSpace t := by
      rw [trimLeftSpace.eq_4, if_neg h1, if_neg h2, if_pos h3]
    have e1 : trimLeftSpace (a :: b :: c :: (t ++ [10])) = trimLeftSpace (t ++ [10]) := by
      rw [trimLeftSpace.eq_4, if_neg h1, if_neg h2, if_pos h3]
    show trimLeftSpace (a :: b :: c :: (t ++ [10])) = _
    rw [e1, e2]; exact ih
  | case10 a b c t h1 h2 h3 =>
    have e2 : trimLeftSpace (a :: b :: c :: t) = a :: b :: c :: t := by
      rw [trimLeftSpace.eq_4, if_neg h1, if_neg h2, if_neg h3]
    have e1 : trimLeftSpace (a :: b :: c :: (t ++ [10])) = a :: b :: c :: (t ++ [10]) := by
      rw [trimLeftSpace.eq_4, if_neg h1, if_neg h2, if_neg h3]
    show trimLeftSpace (a :: b :: c :: (t ++ [10])) = _
    rw [e1, e2]; simp

theorem trimSpace_newline (L : Bytes) : trimSpace (L ++ [10]) = trimSpace L := by
  unfold trimSpace
  rw [trimLeftSpace_newline]
  by_cases h : trimLeftSpace L = []
  · simp [h]
  · rw [if_neg h, List.reverse_append, List.reverse_singleton, List.singleton_append,
      trimLeftSpaceRev_newline]

/-! ## C1: handshake dispatch -/

/-- C1 as stated is false: the line `"__UDP__\r"` is not the 7-byte literal,
yet the closure takes the UDP branch, because the line is trimmed before the
comparison. -/
theorem route_udp_iff_exact_literal_fails :
    ¬ (∀ L rest : Bytes, 10 ∉ L →
        ((route (L ++ 10 :: rest) = some (.udpRelay, rest) ↔ L = udpLiteral) ∧
         (L ≠ udpLiteral → route (L ++ 10 :: rest) = some (.tcpDial L, rest)))) := by
  intro h
  have h1 := (h (udpLiteral ++ [13]) [] (by decide)).1
  exact absurd (h1.mp (by decide)) (by decide)

/-- C1 amended: for every handshake line `L` (the bytes before the first
newline) the closure takes the UDP branch iff `strings.TrimSpace(L)` is the
literal `"__UDP__"`; otherwise it takes the TCP branch and dials
`strings.TrimSpace(L)`.  The bytes after the newline stay in the reader. -/
theorem route_trims_handshake_line (L rest : Bytes) (h : 10 ∉ L) :
    route (L ++ 10 :: rest) =
      some (if trimSpace L = udpLiteral then Branch.udpRelay
            else Branch.tcpDial (trimSpace L), rest) := by
  unfold route
  rw [readString_append 10 L rest h]
  simp only [dispatch, trimSpace_newline]

/-- Witness for `route_trims_handshake_line`: the line `" __UDP__"`. -/
theorem route_trims_handshake_line_witness :
    10 ∉ (32 :: udpLiteral) ∧
    route ((32 :: udpLiteral) ++ 10 :: [1, 2]) =
      some (if trimSpace (32 :: udpLiteral) = udpLiteral then Branch.udpRelay
            else Branch.tcpDial (trimSpace (32 :: udpLiteral)), [1, 2]) :=
  ⟨by decide, route_trims_handshake_line (32 :: udpLiteral) [1, 2] (by decide)⟩

/-! ## C2: UDP request framing round trip -/

theorem readFull_append (a rest : Bytes) :
    readFull a.length (a ++ rest) = some (a, rest) := by
  simp [readFull]

theorem be16_decode (n : Nat) : (n / 256) <<< 8 ||| (n % 256) = n := by
  have h : n % 256 < 2 ^ 8 := by omega
  rw [Nat.shiftLeft_eq, Nat.mul_comm, ← Nat.mul_add_lt_is_or h]
  omega

/-- C2: the request decoder inverts the request framing.  For `destAddr` of
at most 255 bytes and `payload` of at most 65535 bytes, decoding the bytes
`[len destAddr] ++ destAddr ++ [len payload / 256, len payload % 256] ++ payload ++ rest`
succeeds with exactly `(destAddr, payload)` and leaves exactly `rest` unread;
with an empty `destAddr` the decoded address is the empty string. -/
theorem decodeRequest_roundtrip (destAddr payload rest : Bytes)
    (hd : destAddr.length ≤ 255) (hp : payload.length ≤ 65535) :
    decodeRequest ([toByte destAddr.length] ++ destAddr ++
        [toByte (payload.length / 256), toByte (payload.length % 256)] ++ payload ++ rest)
      = ReadFrame.frame destAddr payload rest
    ∧ decodeRequest ([0] ++
          [toByte (payload.length / 256), toByte (payload.length % 256)] ++ payload ++ rest)
        = ReadFrame.frame [] payload rest := by
  have b1 : toByte (payload.length / 256) = payload.length / 256 := by
    unfold toByte; omega
  have b2 : toByte (payload.length % 256) = payload.length % 256 := by
    unfold toByte; omega
  have key : ∀ d : Bytes, d.length ≤ 255 → decodeRequest ([toByte d.length] ++ d ++
        [toByte (payload.length / 256), toByte (payload.length % 256)] ++ payload ++ rest)
      = ReadFrame.frame d payload rest := by
    intro d hd
    have b0 : toByte d.length = d.length := by unfold toByte; omega
    rw [b0, b1, b2]
    have e1 : readFull 1 ([d.length] ++ d ++
        [payload.length / 256, payload.length % 256] ++ payload ++ rest)
        = some ([d.length], d ++ ([payload.length / 256, payload.length % 256] ++ payload ++ rest)) := by
      simp [readFull]
    have e2 := readFull_append d ([payload.length / 256, payload.length % 256] ++ payload ++ rest)
    have e3 : readFull 2 ([payload.length / 256, payload.length % 256] ++ payload ++ rest)
        = some ([payload.length / 256, payload.length % 256], payload ++ rest) := by
      simp [readFull]
    have e4 := readFull_append payload rest
    unfold decodeRequest
    rw [e1]
    simp only [List.getD_cons_zero, e2, e3, List.getD_cons_succ, be16_decode, e4]
  exact ⟨key destAddr hd, key [] (by simp)⟩

/-- Witness for `decodeRequest_roundtrip`: destination `"a:1"`, payload
`[7, 8]`, followed by one more byte. -/
theorem decodeRequest_roundtrip_witness :
    decodeRequest ([toByte [97, 58, 49].length] ++ [97, 58, 49] ++
        [toByte ([7, 8].length / 256), toByte ([7, 8].length % 256)] ++ [7, 8] ++ [9])
      = ReadFrame.frame [97, 58, 49] [7, 8] [9]
    ∧ decodeRequest ([0] ++
          [toByte ([7, 8].length / 256), toByte ([7, 8].length % 256)] ++ [7, 8] ++ [9])
        = ReadFrame.frame [] [7, 8] [9] :=
  decodeRequest_roundtrip [97, 58, 49] [7, 8] [9] (by decide) (by decide)

/-! ## C6: first connection and handshake write -/

/-- C6: `Dial` on a fresh manager.  When the dial and the stream-open succeed,
the calls are exactly: one `quic.DialAddr` with `NextProtos = ["quic-proxy"]`
and `InsecureSkipVerify` equal to the configured flag, one `OpenStreamSync` on
that connection, one `Write` of `targetAddr ++ "\n"` on that stream.  If the
write succeeds the stream is returned; if the write fails the stream is closed
and the write error is returned. -/
theorem dial_fresh (tp : Transport) (tr : List DialEvent) (skip : Bool)
    (serverAddr targetAddr : Bytes)
    (hdial : tp.dialAddr tr serverAddr
      { InsecureSkipVerify := skip, NextProtos := [KQuicProxy] } = none)
    (hopen : tp.openStreamSync
      (tr ++ [.dialOk serverAddr { InsecureSkipVerify := skip, NextProtos := [KQuicProxy] }
        tr.length]) tr.length = none) :
    (tp.write (tr ++ [.dialOk serverAddr
          { InsecureSkipVerify := skip, NextProtos := [KQuicProxy] } tr.length,
          .openOk tr.length (tr.length + 1)]) (tr.length + 1) (targetAddr ++ [10]) = none →
      Dial tp tr (NewQuicDialer skip) serverAddr targetAddr =
        { result := .ok { conn := tr.length, stream := tr.length + 1 },
          qd := { skipCertVerify := skip, conn := some tr.length },
          trace := tr ++ [.dialOk serverAddr
              { InsecureSkipVerify := skip, NextProtos := [KQuicProxy] } tr.length,
            .openOk tr.length (tr.length + 1),
            .write (tr.length + 1) (targetAddr ++ [10]) none] })
    ∧ (∀ werr, tp.write (tr ++ [.dialOk serverAddr
          { InsecureSkipVerify := skip, NextProtos := [KQuicProxy] } tr.length,
          .openOk tr.length (tr.length + 1)]) (tr.length + 1) (targetAddr ++ [10]) = some werr →
      Dial tp tr (NewQuicDialer skip) serverAddr targetAddr =
        { result := .error werr,
          qd := { skipCertVerify := skip, conn := some tr.length },
          trace := tr ++ [.dialOk serverAddr
              { InsecureSkipVerify := skip, NextProtos := [KQuicProxy] } tr.length,
            .openOk tr.length (tr.length + 1),
            .write (tr.length + 1) (targetAddr ++ [10]) (some werr),
            .streamClose (tr.length + 1)] }) := by
  constructor
  · intro hw
    simp [Dial, NewQuicDialer, dialOpen, dialHandshake, hdial, hopen, hw]
  · intro werr hw
    simp [Dial, NewQuicDialer, dialOpen, dialHandshake, hdial, hopen, hw]

/-- Witness for `dial_fresh`: every call succeeds (flag `false`), and the
handshake write fails (flag `true`). -/
theorem dial_fresh_witness :
    Dial (scripted [] exErr) [] (NewQuicDialer false) exServer exTarget =
        { result := .ok { conn := 0, stream := 1 },
          qd := { skipCertVerify := false, conn := some 0 },
          trace := [.dialOk exServer { InsecureSkipVerify := false, NextProtos := [KQuicProxy] } 0,
            .openOk 0 1, .write 1 (exTarget ++ [10]) none] }
    ∧ Dial (scripted [2] exErr) [] (NewQuicDialer true) exServer exTarget =
        { result := .error exErr,
          qd := { skipCertVerify := true, conn := some 0 },
          trace := [.dialOk exServer { InsecureSkipVerify := true, NextProtos := [KQuicProxy] } 0,
            .openOk 0 1, .write 1 (exTarget ++ [10]) (some exErr), .streamClose 1] } :=
  ⟨(dial_fresh (scripted [] exErr) [] false exServer exTarget (by decide) (by decide)).1
      (by decide),
   (dial_fresh (scripted [2] exErr) [] true exServer exTarget (by decide) (by decide)).2
      exErr (by decide)⟩

/-! ## C5: reconnection scenario -/

/-- C5: `Dial` with an existing connection `c1` whose stream-open fails with
`e1`, while the close, the new dial, the new stream-open and the handshake
write succeed.  For either value of the manager flag the calls are, in order:
`OpenStreamSync` on `c1` (failing), `c1.CloseWithError(2021, e1)`,
`quic.DialAddr` with `InsecureSkipVerify = true` and `NextProtos =
["quic-proxy"]` giving `c2`, `OpenStreamSync` on `c2`, `Write` of
`targetAddr ++ "\n"`.  The stream on `c2` is returned and the manager holds
`c2`. -/
theorem dial_reconnect_scenario (tp : Transport) (tr : List DialEvent) (qd : QuicDialer)
    (serverAddr targetAddr : Bytes) (c1 : ConnId) (e1 : GoError)
    (hconn : qd.conn = some c1)
    (hopen1 : tp.openStreamSync tr c1 = some e1)
    (hclose : tp.closeWithError (tr ++ [.openFailed c1 e1]) c1 2021 e1 = none)
    (hdial : tp.dialAddr (tr ++ [.openFailed c1 e1, .closeWithError c1 2021 e1 none])
      serverAddr { InsecureSkipVerify := true, NextProtos := [KQuicProxy] } = none)
    (hopen2 : tp.openStreamSync (tr ++ [.openFailed c1 e1, .closeWithError c1 2021 e1 none,
      .dialOk serverAddr { InsecureSkipVerify := true, NextProtos := [KQuicProxy] }
        (tr.length + 2)]) (tr.length + 2) = none)
    (hwrite : tp.write (tr ++ [.openFailed c1 e1, .closeWithError c1 2021 e1 none,
      .dialOk serverAddr { InsecureSkipVerify := true, NextProtos := [KQuicProxy] }
        (tr.length + 2), .openOk (tr.length + 2) (tr.length + 3)])
      (tr.length + 3) (targetAddr ++ [10]) = none) :
    Dial tp tr qd serverAddr targetAddr =
      { result := .ok { conn := tr.length + 2, stream := tr.length + 3 },
        qd := { skipCertVerify := qd.skipCertVerify, conn := some (tr.length + 2) },
        trace := tr ++ [.openFailed c1 e1, .closeWithError c1 2021 e1 none,
          .dialOk serverAddr { InsecureSkipVerify := true, NextProtos := [KQuicProxy] }
            (tr.length + 2),
          .openOk (tr.length + 2) (tr.length + 3),
          .write (tr.length + 3) (targetAddr ++ [10]) none] } := by
  simp [Dial, hconn, dialOpen, dialHandshake, hopen1, hclose, hdial, hopen2, hwrite]

/-- Witness for `dial_reconnect_scenario`: the manager flag is `false`, the
connection 0 was established by an earlier call, and the first stream-open of
this call fails. -/
theorem dial_reconnect_scenario_witness :
    Dial (scripted [3] exErr)
        [.dialOk exServer { InsecureSkipVerify := false, NextProtos := [KQuicProxy] } 0,
          .openOk 0 1, .write 1 (exTarget ++ [10]) none]
        { skipCertVerify := false, conn := some 0 } exServer exTarget =
      { result := .ok { conn := 5, stream := 6 },
        qd := { skipCertVerify := false, conn := some 5 },
        trace := [.dialOk exServer { InsecureSkipVerify := false, NextProtos := [KQuicProxy] } 0,
          .openOk 0 1, .write 1 (exTarget ++ [10]) none,
          .openFailed 0 exErr, .closeWithError 0 2021 exErr none,
          .dialOk exServer { InsecureSkipVerify := true, NextProtos := [KQuicProxy] } 5,
          .openOk 5 6, .write 6 (exTarget ++ [10]) none] } :=
  dial_reconnect_scenario (scripted [3] exErr)
    [.dialOk exServer { InsecureSkipVerify := false, NextProtos := [KQuicProxy] } 0,
      .openOk 0 1, .write 1 (exTarget ++ [10]) none]
    { skipCertVerify := false, conn := some 0 } exServer exTarget 0 exErr
    rfl (by decide) (by decide) (by decide) (by decide) (by decide)

/-! ## C3: reconnection limit -/

/-- C3 as stated is false: with an existing connection whose stream-open
fails, the re-dial can fail, and then the error is surfaced although no new
connection was established and no further stream-open was attempted. -/
theorem dial_exactly_one_reconnect_fails :
    ¬ (∀ (tp : Transport) (tr : List DialEvent) (qd : QuicDialer)
        (serverAddr targetAddr : Bytes) (c1 : ConnId) (e1 : GoError),
        qd.conn = some c1 → tp.openStreamSync tr c1 = some e1 →
        dialsEstablished ((Dial tp tr qd serverAddr targetAddr).trace.drop tr.length) = 1 ∧
        openAttempts ((Dial tp tr qd serverAddr targetAddr).trace.drop tr.length) = 2) := by
  intro h
  have h1 := h (scripted [3, 5] exErr)
    [.dialOk exServer { InsecureSkipVerify := false, NextProtos := [KQuicProxy] } 0,
      .openOk 0 1, .write 1 (exTarget ++ [10]) none]
    { skipCertVerify := false, conn := some 0 } exServer exTarget 0 exErr rfl (by decide)
  exact absurd h1 (by decide)

/-- C3 amended: a `Dial` call that starts with an existing connection `c1`
whose stream-open fails with `e1` issues `c1.CloseWithError(2021, e1)` and
makes at most one `quic.DialAddr` and at most two `OpenStreamSync` calls.  If
the close reports an error, that error is returned and nothing is dialed.
Otherwise exactly one `quic.DialAddr` is attempted; if it fails its error is
returned and no further stream-open is attempted; if it succeeds exactly one
further `OpenStreamSync` is attempted, on the new connection, and if that one
fails its error is returned with no further dial or stream-open. -/
theorem dial_reconnect_limit (tp : Transport) (tr : List DialEvent) (qd : QuicDialer)
    (serverAddr targetAddr : Bytes) (c1 : ConnId) (e1 : GoError)
    (hconn : qd.conn = some c1) (hopen1 : tp.openStreamSync tr c1 = some e1) :
    (dialAttempts ((Dial tp tr qd serverAddr targetAddr).trace.drop tr.length) ≤ 1
      ∧ openAttempts ((Dial tp tr qd serverAddr targetAddr).trace.drop tr.length) ≤ 2
      ∧ ((Dial tp tr qd serverAddr targetAddr).trace.take (tr.length + 1)
          = tr ++ [.openFailed c1 e1])
      ∧ (∃ cerr, DialEvent.closeWithError c1 2021 e1 cerr ∈
          (Dial tp tr qd serverAddr targetAddr).trace.drop tr.length))
    ∧ (∀ cerr, tp.closeWithError (tr ++ [.openFailed c1 e1]) c1 2021 e1 = some cerr →
        Dial tp tr qd serverAddr targetAddr =
          { result := .error cerr, qd := qd,
            trace := tr ++ [.openFailed c1 e1, .closeWithError c1 2021 e1 (some cerr)] })
    ∧ (tp.closeWithError (tr ++ [.openFailed c1 e1]) c1 2021 e1 = none →
        (∀ derr, tp.dialAddr (tr ++ [.openFailed c1 e1, .closeWithError c1 2021 e1 none])
            serverAddr { InsecureSkipVerify := true, NextProtos := [KQuicProxy] } = some derr →
          Dial tp tr qd serverAddr targetAddr =
            { result := .error derr, qd := qd,
              trace := tr ++ [.openFailed c1 e1, .closeWithError c1 2021 e1 none,
                .dialFailed serverAddr
                  { InsecureSkipVerify := true, NextProtos := [KQuicProxy] } derr] })
        ∧ (tp.dialAddr (tr ++ [.openFailed c1 e1, .closeWithError c1 2021 e1 none])
            serverAddr { InsecureSkipVerify := true, NextProtos := [KQuicProxy] } = none →
          dialAttempts ((Dial tp tr qd serverAddr targetAddr).trace.drop tr.length) = 1
          ∧ dialsEstablished ((Dial tp tr qd serverAddr targetAddr).trace.drop tr.length) = 1
          ∧ openAttempts ((Dial tp tr qd serverAddr targetAddr).trace.drop tr.length) = 2
          ∧ (∀ oerr, tp.openStreamSync (tr ++ [.openFailed c1 e1,
                .closeWithError c1 2021 e1 none,
                .dialOk serverAddr { InsecureSkipVerify := true, NextProtos := [KQuicProxy] }
                  (tr.length + 2)]) (tr.length + 2) = some oerr →
              Dial tp tr qd serverAddr targetAddr =
                { result := .error oerr,
                  qd := { skipCertVerify := qd.skipCertVerify, conn := some (tr.length + 2) },
                  trace := tr ++ [.openFailed c1 e1, .closeWithError c1 2021 e1 none,
                    .dialOk serverAddr
                      { InsecureSkipVerify := true, NextProtos := [KQuicProxy] } (tr.length + 2),
                    .openFailed (tr.length + 2) oerr] })
          ∧ ((∃ st, DialEvent.openOk (tr.length + 2) st ∈
                (Dial tp tr qd serverAddr targetAddr).trace.drop tr.length)
              ∨ (∃ oerr, DialEvent.openFailed (tr.length + 2) oerr ∈
                (Dial tp tr qd serverAddr targetAddr).trace.drop tr.length)))) := by
  have hD : Dial tp tr qd serverAddr targetAddr = dialOpen tp tr qd c1 serverAddr targetAddr := by
    simp [Dial, hconn]
  rw [hD]
  cases hc : tp.closeWithError (tr ++ [.openFailed c1 e1]) c1 2021 e1 with
  | some cerr =>
    simp [dialOpen, hopen1, hc, dialAttempts, openAttempts, List.take_append_eq_append_take]
  | none =>
    cases hd : tp.dialAddr (tr ++ [.openFailed c1 e1, .closeWithError c1 2021 e1 none])
        serverAddr { InsecureSkipVerify := true, NextProtos := [KQuicProxy] } with
    | some derr =>
      simp [dialOpen, hopen1, hc, hd, dialAttempts, openAttempts,
        List.take_append_eq_append_take]
    | none =>
      cases ho : tp.openStreamSync (tr ++ [.openFailed c1 e1,
          .closeWithError c1 2021 e1 none,
          .dialOk serverAddr { InsecureSkipVerify := true, NextProtos := [KQuicProxy] }
            (tr.length + 2)]) (tr.length + 2) with
      | some oerr =>
        simp [dialOpen, hopen1, hc, hd, ho, dialAttempts, dialsEstablished, openAttempts,
          List.take_append_eq_append_take]
      | none =>
        cases hw : tp.write (tr ++ [.openFailed c1 e1, .closeWithError c1 2021 e1 none,
            .dialOk serverAddr { InsecureSkipVerify := true, NextProtos := [KQuicProxy] }
              (tr.length + 2), .openOk (tr.length + 2) (tr.length + 3)])
            (tr.length + 3) (targetAddr ++ [10]) with
        | some werr =>
          simp [dialOpen, dialHandshake, hopen1, hc, hd, ho, hw, dialAttempts,
            dialsEstablished, openAttempts, List.take_append_eq_append_take]
        | none =>
          simp [dialOpen, dialHandshake, hopen1, hc, hd, ho, hw, dialAttempts,
            dialsEstablished, openAttempts, List.take_append_eq_append_take]

/-- Witness for `dial_reconnect_limit`: the first stream-open fails, the
close and the re-dial succeed, the stream-open on the new connection 5 fails,
and its error is returned after exactly those four calls. -/
theorem dial_reconnect_limit_witness :
    Dial (scripted [3, 6] exErr)
        [.dialOk exServer { InsecureSkipVerify := false, NextProtos := [KQuicProxy] } 0,
          .openOk 0 1, .write 1 (exTarget ++ [10]) none]
        { skipCertVerify := false, conn := some 0 } exServer exTarget =
      { result := .error exErr,
        qd := { skipCertVerify := false, conn := some 5 },
        trace := [.dialOk exServer { InsecureSkipVerify := false, NextProtos := [KQuicProxy] } 0,
          .openOk 0 1, .write 1 (exTarget ++ [10]) none,
          .openFailed 0 exErr, .closeWithError 0 2021 exErr none,
          .dialOk exServer { InsecureSkipVerify := true, NextProtos := [KQuicProxy] } 5,
          .openFailed 5 exErr] } :=
  (((dial_reconnect_limit (scripted [3, 6] exErr)
    [.dialOk exServer { InsecureSkipVerify := false, NextProtos := [KQuicProxy] } 0,
      .openOk 0 1, .write 1 (exTarget ++ [10]) none]
    { skipCertVerify := false, conn := some 0 } exServer exTarget 0 exErr
    rfl (by decide)).2.2 (by decide)).2 (by decide)).2.2.2.1 exErr (by decide)

/-! ## C4: returned streams and closed connections -/

/-- Why `RefusesClosed` is assumed of the transport: when a re-dial fails the
manager keeps holding the connection it closed, and it is the transport, not
the manager, that refuses the next stream-open on it.  On a scripted transport
without that behaviour `Dial` would return a stream of a closed connection. -/
theorem dial_relies_on_transport_refusal :
    ¬ (∀ (tp : Transport) (skip : Bool) (calls : List (Bytes × Bytes))
        (serverAddr targetAddr : Bytes) (s : QuicStream),
        (Dial tp (dialSeq tp calls (NewQuicDialer skip, [])).2
            (dialSeq tp calls (NewQuicDialer skip, [])).1 serverAddr targetAddr).result = .ok s →
        s.conn ∉ closedConns
          (Dial tp (dialSeq tp calls (NewQuicDialer skip, [])).2
            (dialSeq tp calls (NewQuicDialer skip, [])).1 serverAddr targetAddr).trace) := by
  intro h
  have h1 := h (scripted [3, 5] exErr) false [(exServer, exTarget), (exServer, exTarget)]
    exServer exTarget { conn := 0, stream := 6 } (by decide)
  exact absurd h1 (by decide)

theorem toByte_shiftRight (n : Nat) (h : n ≤ 65535) : toByte (n >>> 8) = n / 256 := by
  rw [Nat.shiftRight_eq_div_pow]
  unfold toByte
  omega

theorem toByte_and (n : Nat) : toByte (n &&& 0xff) = n % 256 := by
  have h := Nat.and_pow_two_sub_one_eq_mod n 8
  have e : (2 : Nat) ^ 8 - 1 = 0xff := by norm_num
  rw [e] at h
  rw [h]
  unfold toByte
  omega

theorem udpReceive_frame (net : UdpNet) (tr : List UdpEvent)
    (sock : SockId) (reply : Bytes)
    (hrecv : net.readFrom (tr ++ [.setReadDeadline sock 2]) sock = (reply, none))
    (hpos : 1 ≤ reply.length) (hmax : reply.length ≤ 65535) :
    udpReceive net tr sock =
      tr ++ [.setReadDeadline sock 2, .readFrom sock reply none,
        .streamWrite [reply.length / 256, reply.length % 256],
        .streamWrite reply, .sockClose sock] := by
  have ht : reply.take 65535 = reply := List.take_of_length_le hmax
  unfold udpReceive
  simp only [hrecv, ht, toByte_shiftRight _ hmax, toByte_and, List.take_length]
  have : reply.length > 0 := hpos
  simp [this]

/-- C7 as stated is false for `n = 0`: an empty datagram received without
error produces no write to the stream, not the frame `[0, 0]`. -/
theorem udpExchange_empty_reply_writes_nothing :
    ¬ (∀ (net : UdpNet) (tr : List UdpEvent) (destAddr data reply : Bytes),
        net.resolveUDPAddr tr destAddr = none →
        net.dialUDP (tr ++ [.resolve destAddr none]) destAddr = none →
        net.write (tr ++ [.resolve destAddr none, .dialOk destAddr (tr.length + 1)])
          (tr.length + 1) data = none →
        net.readFrom (tr ++ [.resolve destAddr none, .dialOk destAddr (tr.length + 1),
          .send (tr.length + 1) data none, .setReadDeadline (tr.length + 1) 2])
          (tr.length + 1) = (reply, none) →
        reply.length ≤ 65535 →
        streamOutput ((udpExchange net tr destAddr data).trace.drop tr.length)
          = [reply.length / 256, reply.length % 256] ++ reply) := by
  intro h
  have h1 := h (scriptedNet [] exErr []) [] [97, 58, 49] [7, 8] []
    (by decide) (by decide) (by decide) (by decide) (by decide)
  exact absurd h1 (by decide)

/-- C7 amended: for a request whose resolve, socket open and send succeed and
every reply datagram of length `n` with `1 ≤ n ≤ 65535` received without
error, the relay writes to the stream the two bytes `[n / 256, n % 256]` and
then the `n` reply bytes, and nothing else, then closes the socket and goes on
with the loop. -/
theorem udpExchange_writes_response_frame (net : UdpNet) (tr : List UdpEvent)
    (destAddr data reply : Bytes)
    (hres : net.resolveUDPAddr tr destAddr = none)
    (hdial : net.dialUDP (tr ++ [.resolve destAddr none]) destAddr = none)
    (hsend : net.write (tr ++ [.resolve destAddr none, .dialOk destAddr (tr.length + 1)])
      (tr.length + 1) data = none)
    (hrecv : net.readFrom (tr ++ [.resolve destAddr none, .dialOk destAddr (tr.length + 1),
      .send (tr.length + 1) data none, .setReadDeadline (tr.length + 1) 2])
      (tr.length + 1) = (reply, none))
    (hpos : 1 ≤ reply.length) (hmax : reply.length ≤ 65535) :
    udpExchange net tr destAddr data =
      .next (tr ++ [.resolve destAddr none, .dialOk destAddr (tr.length + 1),
        .send (tr.length + 1) data none, .setReadDeadline (tr.length + 1) 2,
        .readFrom (tr.length + 1) reply none,
        .streamWrite [reply.length / 256, reply.length % 256],
        .streamWrite reply, .sockClose (tr.length + 1)])
    ∧ streamOutput ((udpExchange net tr destAddr data).trace.drop tr.length)
        = [reply.length / 256, reply.length % 256] ++ reply := by
  have hrecv2 : net.readFrom ((tr ++ [.resolve destAddr none,
      .dialOk destAddr (tr.length + 1), .send (tr.length + 1) data none]) ++
      [.setReadDeadline (tr.length + 1) 2]) (tr.length + 1) = (reply, none) := by
    simpa using hrecv
  have hu := udpReceive_frame net _ (tr.length + 1) reply hrecv2 hpos hmax
  have he : udpExchange net tr destAddr data =
      .next (tr ++ [.resolve destAddr none, .dialOk destAddr (tr.length + 1),
        .send (tr.length + 1) data none, .setReadDeadline (tr.length + 1) 2,
        .readFrom (tr.length + 1) reply none,
        .streamWrite [reply.length / 256, reply.length % 256],
        .streamWrite reply, .sockClose (tr.length + 1)]) := by
    simp only [udpExchange, hres, List.length_append, List.length_singleton,
      List.append_assoc, List.singleton_append, hdial, hsend]
    simp only [List.append_assoc, List.cons_append, List.nil_append] at hu
    simp only [List.cons_append, List.nil_append, hu]
  refine ⟨he, ?_⟩
  rw [he]
  simp [Exchange.trace, streamOutput]

/-- Witness for `udpExchange_writes_response_frame`: a reply of 18 bytes is
framed with the length bytes `[0x00, 0x12]`. -/
theorem udpExchange_writes_response_frame_witness :
    streamOutput ((udpExchange (scriptedNet [] exErr (List.replicate 18 65)) []
        [97, 58, 49] [7, 8]).trace.drop 0)
      = [0x00, 0x12] ++ List.replicate 18 65 :=
  (udpExchange_writes_response_frame (scriptedNet [] exErr (List.replicate 18 65)) []
    [97, 58, 49] [7, 8] (List.replicate 18 65)
    (by decide) (by decide) (by decide) (by decide) (by decide) (by decide)).2

/-! ## C9: UDP relay loss handling -/

theorem readFull_length (n : Nat) (s a r : Bytes) (h : readFull n s = some (a, r)) :
    a.length = n ∧ s = a ++ r := by
  unfold readFull at h
  split at h
  · simp only [Option.some.injEq, Prod.mk.injEq] at h
    obtain ⟨h1, h2⟩ := h
    subst h1 h2
    simp
    omega
  · simp at h

theorem decodeRequest_length (reader destAddr data rest : Bytes)
    (h : decodeRequest reader = .frame destAddr data rest) :
    rest.length + 3 ≤ reader.length := by
  cases h1 : readFull 1 reader with
  | none => simp only [decodeRequest, h1, reduceCtorEq] at h
  | some v1 =>
    obtain ⟨head, r1⟩ := v1
    cases h2 : readFull (head.getD 0 0) r1 with
    | none => simp only [decodeRequest, h1, h2, reduceCtorEq] at h
    | some v2 =>
      obtain ⟨destBuf, r2⟩ := v2
      cases h3 : readFull 2 r2 with
      | none => simp only [decodeRequest, h1, h2, h3, reduceCtorEq] at h
      | some v3 =>
        obtain ⟨lenBuf, r3⟩ := v3
        cases h4 : readFull ((lenBuf.getD 0 0) <<< 8 ||| (lenBuf.getD 1 0)) r3 with
        | none => simp only [decodeRequest, h1, h2, h3, h4, reduceCtorEq] at h
        | some v4 =>
          obtain ⟨dat, r4⟩ := v4
          simp only [decodeRequest, h1, h2, h3, h4, ReadFrame.frame.injEq] at h
          obtain ⟨-, -, hr⟩ := h
          subst hr
          obtain ⟨l1, e1⟩ := readFull_length _ _ _ _ h1
          obtain ⟨l2, e2⟩ := readFull_length _ _ _ _ h2
          obtain ⟨l3, e3⟩ := readFull_length _ _ _ _ h3
          obtain ⟨l4, e4⟩ := readFull_length _ _ _ _ h4
          rw [e1, e2, e3, e4]
          simp only [List.length_append]
          omega

theorem udpExchange_exit (net : UdpNet) (tr tr1 : List UdpEvent) (d p : Bytes) (why : UdpExit)
    (h : udpExchange net tr d p = .exit why tr1) : ExitRecorded why tr1 := by
  cases h1 : net.resolveUDPAddr tr d with
  | some e1 =>
    simp only [udpExchange, h1, Exchange.exit.injEq] at h
    obtain ⟨e, f⟩ := h
    subst e f
    exact ⟨d, e1, by simp⟩
  | none =>
    cases h2 : net.dialUDP (tr ++ [.resolve d none]) d with
    | some e2 =>
      simp only [udpExchange, h1, h2, Exchange.exit.injEq] at h
      obtain ⟨e, f⟩ := h
      subst e f
      exact ⟨d, e2, by simp⟩
    | none =>
      cases h3 : net.write (tr ++ [UdpEvent.resolve d none] ++
          [UdpEvent.dialOk d (tr ++ [UdpEvent.resolve d none]).length])
          (tr ++ [UdpEvent.resolve d none]).length p with
      | some e3 =>
        simp only [udpExchange, h1, h2, h3, Exchange.exit.injEq] at h
        obtain ⟨e, f⟩ := h
        subst e f
        exact ⟨(tr ++ [UdpEvent.resolve d none]).length, p, e3, by simp⟩
      | none =>
        simp only [udpExchange, h1, h2, h3, reduceCtorEq] at h

theorem udpLoop_total (net : UdpNet) :
    ∀ (fuel : Nat) (reader : Bytes) (tr : List UdpEvent), reader.length < fuel →
      ∃ why rest tr1, udpLoop net fuel reader tr = some (why, rest, tr1)
        ∧ ExitRecorded why tr1 := by
  intro fuel
  induction fuel with
  | zero => intro reader tr h; omega
  | succ n ih =>
    intro reader tr h
    cases hd : decodeRequest reader with
    | failed step =>
      refine ⟨.readFailed step, reader, tr, ?_, trivial⟩
      simp only [udpLoop, hd]
    | frame d p rest =>
      have hl := decodeRequest_length _ _ _ _ hd
      cases he : udpExchange net tr d p with
      | exit why tr1 =>
        refine ⟨why, rest, tr1, ?_, udpExchange_exit net tr tr1 d p why he⟩
        simp only [udpLoop, hd, he]
      | next tr1 =>
        obtain ⟨why, rest2, tr2, h1, h2⟩ := ih rest tr1 (by omega)
        refine ⟨why, rest2, tr2, ?_, h2⟩
        simp only [udpLoop, hd, he, h1]

theorem decodeRequest_suffix (reader destAddr data rest : Bytes)
    (h : decodeRequest reader = .frame destAddr data rest) :
    ∃ consumed, reader = consumed ++ rest := by
  cases h1 : readFull 1 reader with
  | none => simp only [decodeRequest, h1, reduceCtorEq] at h
  | some v1 =>
    obtain ⟨head, r1⟩ := v1
    cases h2 : readFull (head.getD 0 0) r1 with
    | none => simp only [decodeRequest, h1, h2, reduceCtorEq] at h
    | some v2 =>
      obtain ⟨destBuf, r2⟩ := v2
      cases h3 : readFull 2 r2 with
      | none => simp only [decodeRequest, h1, h2, h3, reduceCtorEq] at h
      | some v3 =>
        obtain ⟨lenBuf, r3⟩ := v3
        cases h4 : readFull ((lenBuf.getD 0 0) <<< 8 ||| (lenBuf.getD 1 0)) r3 with
        | none => simp only [decodeRequest, h1, h2, h3, h4, reduceCtorEq] at h
        | some v4 =>
          obtain ⟨dat, r4⟩ := v4
          simp only [decodeRequest, h1, h2, h3, h4, ReadFrame.frame.injEq] at h
          obtain ⟨-, -, hr⟩ := h
          subst hr
          obtain ⟨-, e1⟩ := readFull_length _ _ _ _ h1
          obtain ⟨-, e2⟩ := readFull_length _ _ _ _ h2
          obtain ⟨-, e3⟩ := readFull_length _ _ _ _ h3
          obtain ⟨-, e4⟩ := readFull_length _ _ _ _ h4
          refine ⟨head ++ destBuf ++ lenBuf ++ dat, ?_⟩
          rw [e1, e2, e3, e4]
          simp only [List.append_assoc]

theorem udpExchange_exit_justified (net : UdpNet) (tr tr1 : List UdpEvent) (d p unread : Bytes)
    (why : UdpExit) (h : udpExchange net tr d p = .exit why tr1) :
    ExitJustified why unread tr1 := by
  cases h1 : net.resolveUDPAddr tr d with
  | some e1 =>
    simp only [udpExchange, h1, Exchange.exit.injEq] at h
    obtain ⟨e, f⟩ := h
    subst e f
    exact ⟨tr, d, e1, rfl⟩
  | none =>
    cases h2 : net.dialUDP (tr ++ [.resolve d none]) d with
    | some e2 =>
      simp only [udpExchange, h1, h2, Exchange.exit.injEq] at h
      obtain ⟨e, f⟩ := h
      subst e f
      exact ⟨tr ++ [.resolve d none], d, e2, rfl⟩
    | none =>
      cases h3 : net.write (tr ++ [UdpEvent.resolve d none] ++
          [UdpEvent.dialOk d (tr ++ [UdpEvent.resolve d none]).length])
          (tr ++ [UdpEvent.resolve d none]).length p with
      | some e3 =>
        simp only [udpExchange, h1, h2, h3, Exchange.exit.injEq] at h
        obtain ⟨e, f⟩ := h
        subst e f
        exact ⟨_, (tr ++ [UdpEvent.resolve d none]).length, p, e3, rfl⟩
      | none =>
        simp only [udpExchange, h1, h2, h3, reduceCtorEq] at h

theorem udpLoop_justified (net : UdpNet) :
    ∀ (fuel : Nat) (reader : Bytes) (tr : List UdpEvent), reader.length < fuel →
      ∃ why unread tr1, udpLoop net fuel reader tr = some (why, unread, tr1)
        ∧ ExitJustified why unread tr1
        ∧ ∃ consumed, reader = consumed ++ unread := by
  intro fuel
  induction fuel with
  | zero => intro reader tr h; omega
  | succ n ih =>
    intro reader tr h
    cases hd : decodeRequest reader with
    | failed step =>
      refine ⟨.readFailed step, reader, tr, ?_, hd, [], rfl⟩
      simp only [udpLoop, hd]
    | frame d p rest =>
      have hl := decodeRequest_length _ _ _ _ hd
      obtain ⟨c0, hc0⟩ := decodeRequest_suffix _ _ _ _ hd
      cases he : udpExchange net tr d p with
      | exit why tr1 =>
        refine ⟨why, rest, tr1, ?_, udpExchange_exit_justified net tr tr1 d p rest why he,
          c0, hc0⟩
        simp only [udpLoop, hd, he]
      | next tr1 =>
        obtain ⟨why, rest2, tr2, h1, h2, c1, hc1⟩ := ih rest tr1 (by omega)
        refine ⟨why, rest2, tr2, ?_, h2, c0 ++ c1, ?_⟩
        · simp only [udpLoop, hd, he, h1]
        · rw [hc0, hc1, List.append_assoc]

/-- C9 as stated is false: when the UDP send fails the closure closes the
socket and returns, so the loop does not go on to the next request frame of
the stream. -/
theorem udpLoop_send_failure_does_not_continue :
    ¬ (∀ (net : UdpNet) (fuel : Nat) (reader : Bytes) (tr : List UdpEvent)
        (destAddr data rest : Bytes) (serr : GoError),
        decodeRequest reader = .frame destAddr data rest →
        net.resolveUDPAddr tr destAddr = none →
        net.dialUDP (tr ++ [.resolve destAddr none]) destAddr = none →
        net.write (tr ++ [.resolve destAddr none, .dialOk destAddr (tr.length + 1)])
          (tr.length + 1) data = some serr →
        udpLoop net (fuel + 1) reader tr =
          udpLoop net fuel rest (tr ++ [.resolve destAddr none,
            .dialOk destAddr (tr.length + 1), .send (tr.length + 1) data (some serr),
            .sockClose (tr.length + 1)])) := by
  intro h
  have h1 := h (scriptedNet [2] exErr []) 16 (exFrame ++ exFrame) [] [97, 58, 49] [7, 8]
    exFrame exErr (by decide) (by decide) (by decide) (by decide)
  exact absurd h1 (by decide)

/-- C9 amended: for every decoded request whose destination resolves and
whose socket opens: if the UDP send fails, the relay writes no response frame,
closes the per-request socket and ends the session, leaving the rest of the
stream unread; if the send succeeds and the receive fails (or the 2-second
deadline expires), the relay writes no response frame, closes the per-request
socket and goes on to read the next request frame from the same stream.  Every
session on a finite stream terminates and closes the stream, and it terminates
only when a read from the stream fails (the decoder fails on the bytes left
unread, which are an end part of the stream) or when a resolve, a socket open
or a send fails (that failed call is the last one before the closes). -/
theorem udpLoop_loss_handling (net : UdpNet) (fuel : Nat) (reader : Bytes)
    (tr : List UdpEvent) (destAddr data rest : Bytes)
    (hdec : decodeRequest reader = .frame destAddr data rest)
    (hres : net.resolveUDPAddr tr destAddr = none)
    (hdial : net.dialUDP (tr ++ [.resolve destAddr none]) destAddr = none) :
    (∀ serr, net.write (tr ++ [.resolve destAddr none, .dialOk destAddr (tr.length + 1)])
          (tr.length + 1) data = some serr →
        udpLoop net (fuel + 1) reader tr =
          some (.sendFailed, rest, tr ++ [.resolve destAddr none,
            .dialOk destAddr (tr.length + 1), .send (tr.length + 1) data (some serr),
            .sockClose (tr.length + 1)]))
    ∧ (net.write (tr ++ [.resolve destAddr none, .dialOk destAddr (tr.length + 1)])
          (tr.length + 1) data = none →
        ∀ rerr, (net.readFrom (tr ++ [.resolve destAddr none,
            .dialOk destAddr (tr.length + 1), .send (tr.length + 1) data none,
            .setReadDeadline (tr.length + 1) 2]) (tr.length + 1)).2 = some rerr →
        udpLoop net (fuel + 1) reader tr =
          udpLoop net fuel rest (tr ++ [.resolve destAddr none,
            .dialOk destAddr (tr.length + 1), .send (tr.length + 1) data none,
            .setReadDeadline (tr.length + 1) 2,
            .readFrom (tr.length + 1)
              ((net.readFrom (tr ++ [.resolve destAddr none,
                .dialOk destAddr (tr.length + 1), .send (tr.length + 1) data none,
                .setReadDeadline (tr.length + 1) 2]) (tr.length + 1)).1.take 65535)
              (some rerr),
            .sockClose (tr.length + 1)]))
    ∧ (∀ stream : Bytes, ∃ why unread tr1,
        udpRelay net stream = some (why, unread, tr1 ++ [.streamClose])
        ∧ ExitJustified why unread tr1
        ∧ ∃ consumed, stream = consumed ++ unread) := by
  refine ⟨?_, ?_, ?_⟩
  · intro serr hw
    simp [udpLoop, hdec, udpExchange, hres, hdial, hw]
  · intro hw rerr hr
    simp [udpLoop, hdec, udpExchange, hres, hdial, hw, udpReceive, hr]
  · intro stream
    obtain ⟨why, unread, tr1, h1, h2, h3⟩ :=
      udpLoop_justified net (stream.length + 1) stream [] (Nat.lt_succ_self _)
    exact ⟨why, unread, tr1, by simp [udpRelay, h1], h2, h3⟩

/-- Witness for `udpLoop_loss_handling`: two request frames on the stream; the
receive for the first one fails, and the loop goes on with the second frame. -/
theorem udpLoop_loss_handling_witness :
    udpLoop (scriptedNet [4] exErr []) 17 (exFrame ++ exFrame) [] =
      udpLoop (scriptedNet [4] exErr []) 16 exFrame
        [.resolve [97, 58, 49] none, .dialOk [97, 58, 49] 1, .send 1 [7, 8] none,
          .setReadDeadline 1 2, .readFrom 1 [] (some exErr), .sockClose 1] :=
  (udpLoop_loss_handling (scriptedNet [4] exErr []) 16 (exFrame ++ exFrame) []
    [97, 58, 49] [7, 8] exFrame (by decide) (by decide) (by decide)).2.1 (by decide)
    exErr (by decide)

/-! ## C8: failed authentication -/

theorem cutAt_sound (sep : Nat) :
    ∀ (s a b : Bytes), cutAt sep s = some (a, b) → s = a ++ sep :: b ∧ sep ∉ a := by
  intro s
  induction s with
  | nil => intro a b h; simp [cutAt] at h
  | cons x t ih =>
    intro a b h
    by_cases hx : x = sep
    · subst hx
      simp only [cutAt, if_true, Option.some.injEq, Prod.mk.injEq] at h
      obtain ⟨h1, h2⟩ := h
      subst h1 h2
      simp
    · cases hc : cutAt sep t with
      | none => simp only [cutAt, hx, if_false, hc, reduceCtorEq] at h
      | some v =>
        obtain ⟨a1, b1⟩ := v
        simp only [cutAt, hx, if_false, hc, Option.some.injEq, Prod.mk.injEq] at h
        obtain ⟨h1, h2⟩ := h
        subst h1 h2
        obtain ⟨e1, e2⟩ := ih a1 b1 hc
        refine ⟨by rw [e1]; rfl, ?_⟩
        intro hm
        rcases List.mem_cons.mp hm with hm | hm
        · exact hx hm.symm
        · exact e2 hm

theorem cutAt_complete (sep : Nat) (b : Bytes) :
    ∀ a : Bytes, sep ∉ a → cutAt sep (a ++ sep :: b) = some (a, b) := by
  intro a
  induction a with
  | nil => intro _; simp [cutAt]
  | cons x t ih =>
    intro h
    have hx : x ≠ sep := fun e => h (by simp [e])
    have ht : sep ∉ t := fun e => h (List.mem_cons_of_mem _ e)
    simp [cutAt, hx, ih ht]

theorem auth_leaves_request (decodeString : Bytes → Option Bytes) (f : Bytes → Bytes → Bool)
    (r : Request) :
    (auth decodeString r f).2 = { r with Header := r.Header.Del ProxyAuthHeader } := by
  unfold auth
  simp only []
  split
  · rfl
  · split
    · rfl
    · split <;> rfl

theorem auth_true_iff (decodeString : Bytes → Option Bytes) (f : Bytes → Bytes → Bool)
    (r : Request) :
    (auth decodeString r f).1 = true ↔
      ∃ token user passwd, r.Header.Get ProxyAuthHeader = basicLiteral ++ 32 :: token
        ∧ decodeString token = some (user ++ 58 :: passwd) ∧ 58 ∉ user
        ∧ f user passwd = true := by
  constructor
  · intro h
    cases hc : cutAt 32 (r.Header.Get ProxyAuthHeader) with
    | none => simp [auth, splitN2, hc] at h
    | some v =>
      obtain ⟨a, token⟩ := v
      obtain ⟨e1, -⟩ := cutAt_sound 32 _ a token hc
      by_cases ha : a = basicLiteral
      · subst ha
        cases hd : decodeString token with
        | none => simp [auth, splitN2, hc, hd] at h
        | some raw =>
          cases hc2 : cutAt 58 raw with
          | none => simp [auth, splitN2, hc, hd, hc2] at h
          | some w =>
            obtain ⟨user, passwd⟩ := w
            obtain ⟨e2, e3⟩ := cutAt_sound 58 raw user passwd hc2
            simp [auth, splitN2, hc, hd, hc2] at h
            exact ⟨token, user, passwd, e1, by rw [hd, e2], e3, h⟩
      · simp [auth, splitN2, hc, ha] at h
  · rintro ⟨token, user, passwd, h1, h2, h3, h4⟩
    have hc := cutAt_complete 32 token basicLiteral (by decide)
    have hc2 := cutAt_complete 58 passwd user h3
    simp [auth, splitN2, h1, hc, h2, hc2, h4]

/-- C8: for every request and credential check `f`, when `auth(req, f)` is
false the `Basic` handler returns a nil request together with
`BasicUnauthorized(req)`, whose status code is 404 (not 401 or 407), whose
body is `"404 not found"` and whose `ContentLength` is 13; `BasicConnect`
returns `RejectConnect` and the unchanged host and stores that response in the
context.  On a proxy with `ProxyBasicAuth` installed the request is therefore
answered with that response and not sent on, a CONNECT is rejected with that
response, and in both cases no target is dialed.  `auth` is true exactly when
the `Proxy-Authorization` header is `"Basic "` followed by a token that
decodes to `user:secret` (split at the first colon) with `f user secret`
true, so it is false when the header is missing, is not of that form, does
not decode to such a pair, or `f` rejects the pair; in every case `auth`
deletes the header from the request. -/
theorem basic_rejects_with_not_found (decodeString : Bytes → Option Bytes)
    (f : Bytes → Bytes → Bool) (req : Request)
    (hauth : (auth decodeString req f).1 = false) :
    Basic decodeString f req
        = (none, some (BasicUnauthorized (auth decodeString req f).2))
    ∧ (BasicUnauthorized (auth decodeString req f).2).StatusCode = 404
    ∧ (BasicUnauthorized (auth decodeString req f).2).StatusCode ≠ 401
    ∧ (BasicUnauthorized (auth decodeString req f).2).StatusCode ≠ 407
    ∧ (BasicUnauthorized (auth decodeString req f).2).Body
        = [52, 48, 52, 32, 110, 111, 116, 32, 102, 111, 117, 110, 100]
    ∧ (BasicUnauthorized (auth decodeString req f).2).ContentLength = 13
    ∧ (∀ (host : Bytes) (ctx : ProxyCtx), ctx.Req = req →
        BasicConnect decodeString f host ctx
          = ((ConnectAction.RejectConnect, host),
              { Req := (auth decodeString req f).2,
                Resp := some (BasicUnauthorized (auth decodeString req f).2) }))
    ∧ (∀ r : Request, r.Header.Get ProxyAuthHeader = [] →
        (auth decodeString r f).1 = false)
    ∧ (serveRequest (ProxyBasicAuth decodeString NewProxyHttpServer f) req
        = .respond (BasicUnauthorized (auth decodeString req f).2)
      ∧ targetDials (serveRequest (ProxyBasicAuth decodeString NewProxyHttpServer f) req) = [])
    ∧ (∀ host : Bytes,
        serveConnect (ProxyBasicAuth decodeString NewProxyHttpServer f) host req
          = .rejectConnect (some (BasicUnauthorized (auth decodeString req f).2))
        ∧ targetDials
            (serveConnect (ProxyBasicAuth decodeString NewProxyHttpServer f) host req) = [])
    ∧ (∀ r : Request, (auth decodeString r f).1 = true ↔
        ∃ token user passwd, r.Header.Get ProxyAuthHeader = basicLiteral ++ 32 :: token
          ∧ decodeString token = some (user ++ 58 :: passwd) ∧ 58 ∉ user
          ∧ f user passwd = true)
    ∧ (∀ r : Request, (auth decodeString r f).2
        = { r with Header := r.Header.Del ProxyAuthHeader }) := by
  have hB : Basic decodeString f req
      = (none, some (BasicUnauthorized (auth decodeString req f).2)) := by
    simp [Basic, hauth]
  have hC : ∀ (host : Bytes) (ctx : ProxyCtx), ctx.Req = req →
      BasicConnect decodeString f host ctx
        = ((ConnectAction.RejectConnect, host),
            { Req := (auth decodeString req f).2,
              Resp := some (BasicUnauthorized (auth decodeString req f).2) }) := by
    intro host ctx hctx
    simp [BasicConnect, hctx, hauth]
  have hS : serveRequest (ProxyBasicAuth decodeString NewProxyHttpServer f) req
      = .respond (BasicUnauthorized (auth decodeString req f).2) := by
    simp [serveRequest, ProxyBasicAuth, NewProxyHttpServer, filterRequest, hB]
  have hK : ∀ host : Bytes,
      serveConnect (ProxyBasicAuth decodeString NewProxyHttpServer f) host req
        = .rejectConnect (some (BasicUnauthorized (auth decodeString req f).2)) := by
    intro host
    simp [serveConnect, ProxyBasicAuth, NewProxyHttpServer, runConnectHandlers,
      hC host { Req := req, Resp := none } rfl]
  refine ⟨hB, rfl, (by decide : (404 : Nat) ≠ 401), (by decide : (404 : Nat) ≠ 407),
    rfl, rfl, hC, ?_, ⟨hS, ?_⟩, ?_, auth_true_iff decodeString f,
    auth_leaves_request decodeString f⟩
  · intro r hr
    simp [auth, hr, splitN2, cutAt]
  · rw [hS]; rfl
  · intro host
    refine ⟨hK host, ?_⟩
    rw [hK host]; rfl

/-- Witness for `basic_rejects_with_not_found`: the header
`Proxy-Authorization: Basic user:bad` with the check that accepts only
`("user", "secret")` (the decoder taken as the identity) is answered with the
404 response and nothing is dialed; with `user:secret` the same check makes
`auth` true. -/
theorem basic_rejects_with_not_found_witness :
    (serveRequest (ProxyBasicAuth some NewProxyHttpServer exCheck)
        (exRequestWith [117, 115, 101, 114, 58, 98, 97, 100])
      = .respond (BasicUnauthorized
          (auth some (exRequestWith [117, 115, 101, 114, 58, 98, 97, 100]) exCheck).2)
      ∧ targetDials (serveRequest (ProxyBasicAuth some NewProxyHttpServer exCheck)
          (exRequestWith [117, 115, 101, 114, 58, 98, 97, 100])) = [])
    ∧ (auth some (exRequestWith [117, 115, 101, 114, 58, 115, 101, 99, 114, 101, 116])
        exCheck).1 = true :=
  have h := basic_rejects_with_not_found some exCheck
    (exRequestWith [117, 115, 101, 114, 58, 98, 97, 100]) (by decide)
  ⟨h.2.2.2.2.2.2.2.2.1,
   (h.2.2.2.2.2.2.2.2.2.2.1
      (exRequestWith [117, 115, 101, 114, 58, 115, 101, 99, 114, 101, 116])).mpr
      ⟨[117, 115, 101, 114, 58, 115, 101, 99, 114, 101, 116], [117, 115, 101, 114],
        [115, 101, 99, 114, 101, 116], by decide, rfl, by decide, by decide⟩⟩

/-! ## C10: TCP relay teardown -/

/-- C10 as stated is false: when the stream-to-destination copy returns
first, neither the stream nor the destination is closed; the closure is still
blocked in the destination-to-stream copy. -/
theorem relay_up_return_closes_nothing :
    ¬ (∀ steps : List CopyReturn, steps ≠ [] →
        (relayRun steps).streamClosed = true ∧ (relayRun steps).remoteClosed = true) := by
  intro h
  exact absurd (h [.up] (by decide)).1 (by decide)

theorem relayRun_append (a : List CopyReturn) (c : CopyReturn) :
    relayRun (a ++ [c]) = relayStep (relayRun a) c := by
  simp [relayRun, List.foldl_append]

/-- C10 amended: in every TCP relay session the session ends, and both the
stream and the destination connection are closed, exactly when the
destination-to-stream copy has returned (by EOF or error), whether or not the
stream-to-destination copy has returned; while only the stream-to-destination
copy has returned, nothing is closed. -/
theorem relay_closed_iff_down_returned (steps : List CopyReturn) :
    ((relayRun steps).downReturned = true ↔ CopyReturn.down ∈ steps)
    ∧ ((relayRun steps).streamClosed = true ↔ CopyReturn.down ∈ steps)
    ∧ ((relayRun steps).remoteClosed = true ↔ CopyReturn.down ∈ steps)
    ∧ ((relayRun steps).upReturned = true ↔ CopyReturn.up ∈ steps) := by
  induction steps using List.reverseRecOn with
  | nil => simp [relayRun, relayStart]
  | append_singleton a c ih =>
    rw [relayRun_append]
    obtain ⟨h1, h2, h3, h4⟩ := ih
    cases c <;> simp [relayStep, h1, h2, h3, h4]

/-! ## C11: the UDP loop over a whole stream -/

theorem readFull_append_more (n : Nat) (s a r more : Bytes)
    (h : readFull n s = some (a, r)) : readFull n (s ++ more) = some (a, r ++ more) := by
  obtain ⟨hl, hs⟩ := readFull_length n s a r h
  subst hs
  rw [List.append_assoc, ← hl]
  exact readFull_append a (r ++ more)

theorem decodeRequest_append_more (reader destAddr data rest more : Bytes)
    (h : decodeRequest reader = .frame destAddr data rest) :
    decodeRequest (reader ++ more) = .frame destAddr data (rest ++ more) := by
  cases h1 : readFull 1 reader with
  | none => simp only [decodeRequest, h1, reduceCtorEq] at h
  | some v1 =>
    obtain ⟨head, r1⟩ := v1
    cases h2 : readFull (head.getD 0 0) r1 with
    | none => simp only [decodeRequest, h1, h2, reduceCtorEq] at h
    | some v2 =>
      obtain ⟨destBuf, r2⟩ := v2
      cases h3 : readFull 2 r2 with
      | none => simp only [decodeRequest, h1, h2, h3, reduceCtorEq] at h
      | some v3 =>
        obtain ⟨lenBuf, r3⟩ := v3
        cases h4 : readFull ((lenBuf.getD 0 0) <<< 8 ||| (lenBuf.getD 1 0)) r3 with
        | none => simp only [decodeRequest, h1, h2, h3, h4, reduceCtorEq] at h
        | some v4 =>
          obtain ⟨dat, r4⟩ := v4
          simp only [decodeRequest, h1, h2, h3, h4, ReadFrame.frame.injEq] at h
          obtain ⟨e1, e2, e3⟩ := h
          subst e1 e2 e3
          simp only [decodeRequest, readFull_append_more _ _ _ _ more h1,
            readFull_append_more _ _ _ _ more h2, readFull_append_more _ _ _ _ more h3,
            readFull_append_more _ _ _ _ more h4]

theorem decodeRequest_frameBytes (destAddr data rest : Bytes)
    (hd : destAddr.length ≤ 255) (hp : data.length ≤ 65535) :
    decodeRequest (frameBytes destAddr data ++ rest) = .frame destAddr data rest := by
  have b0 : toByte destAddr.length = destAddr.length := by unfold toByte; omega
  have b1 : toByte (data.length / 256) = data.length / 256 := by unfold toByte; omega
  have b2 : toByte (data.length % 256) = data.length % 256 := by unfold toByte; omega
  unfold frameBytes
  rw [b0, b1, b2]
  have e1 : readFull 1 ([destAddr.length] ++ destAddr ++
      [data.length / 256, data.length % 256] ++ data ++ rest)
      = some ([destAddr.length],
          destAddr ++ ([data.length / 256, data.length % 256] ++ data ++ rest)) := by
    simp [readFull]
  have e2 := readFull_append destAddr ([data.length / 256, data.length % 256] ++ data ++ rest)
  have e3 : readFull 2 ([data.length / 256, data.length % 256] ++ data ++ rest)
      = some ([data.length / 256, data.length % 256], data ++ rest) := by
    simp [readFull]
  have e4 := readFull_append data rest
  unfold decodeRequest
  rw [e1]
  simp only [List.getD_cons_zero, e2, e3, List.getD_cons_succ, be16_decode, e4]

theorem decodeRequest_strict_part (tail destAddr data more : Bytes)
    (hd : destAddr.length ≤ 255) (hp : data.length ≤ 65535) (hmore : more ≠ [])
    (h : tail ++ more = frameBytes destAddr data) :
    ∃ step, decodeRequest tail = .failed step := by
  cases hdec : decodeRequest tail with
  | failed step => exact ⟨step, rfl⟩
  | frame d p r =>
    have h1 := decodeRequest_append_more tail d p r more hdec
    have h2 := decodeRequest_frameBytes destAddr data [] hd hp
    rw [List.append_nil, ← h, h1] at h2
    simp only [ReadFrame.frame.injEq] at h2
    obtain ⟨-, -, h3⟩ := h2
    simp at h3
    exact absurd h3.2 hmore

theorem socketsOpened_append (a b : List UdpEvent) :
    socketsOpened (a ++ b) = socketsOpened a ++ socketsOpened b := by
  simp [socketsOpened, List.filterMap_append]

theorem datagramsSent_append (a b : List UdpEvent) :
    datagramsSent (a ++ b) = datagramsSent a ++ datagramsSent b := by
  simp [datagramsSent, List.filterMap_append]

theorem socketsClosed_append (a b : List UdpEvent) :
    socketsClosed (a ++ b) = socketsClosed a ++ socketsClosed b := by
  simp [socketsClosed, List.filterMap_append]

theorem failedCalls_append (a b : List UdpEvent) :
    failedCalls (a ++ b) = failedCalls a ++ failedCalls b := by
  simp [failedCalls, List.filter_append]

theorem udpReceive_shape (net : UdpNet) (tr : List UdpEvent) (sock : Nat) :
    ∃ R, udpReceive net tr sock = tr ++ R ∧ socketsOpened R = [] ∧ datagramsSent R = []
      ∧ socketsClosed R = [sock] := by
  unfold udpReceive
  simp only []
  split
  · apply Exists.intro
    constructor
    · simp only [List.append_assoc]
      rfl
    · exact ⟨rfl, rfl, rfl⟩
  · apply Exists.intro
    constructor
    · simp only [List.append_assoc]
      rfl
    · exact ⟨rfl, rfl, rfl⟩

theorem udpExchange_exit_failed (net : UdpNet) (tr tr1 : List UdpEvent) (d p : Bytes)
    (why : UdpExit) (h : udpExchange net tr d p = .exit why tr1) : failedCalls tr1 ≠ [] := by
  cases h1 : net.resolveUDPAddr tr d with
  | some e1 =>
    simp only [udpExchange, h1, Exchange.exit.injEq] at h
    obtain ⟨-, f⟩ := h
    subst f
    rw [failedCalls_append]
    simp [failedCalls]
  | none =>
    cases h2 : net.dialUDP (tr ++ [.resolve d none]) d with
    | some e2 =>
      simp only [udpExchange, h1, h2, Exchange.exit.injEq] at h
      obtain ⟨-, f⟩ := h
      subst f
      rw [failedCalls_append]
      simp [failedCalls]
    | none =>
      cases h3 : net.write (tr ++ [UdpEvent.resolve d none] ++
          [UdpEvent.dialOk d (tr ++ [UdpEvent.resolve d none]).length])
          (tr ++ [UdpEvent.resolve d none]).length p with
      | some e3 =>
        simp only [udpExchange, h1, h2, h3, Exchange.exit.injEq] at h
        obtain ⟨-, f⟩ := h
        subst f
        rw [failedCalls_append]
        simp [failedCalls]
      | none =>
        simp only [udpExchange, h1, h2, h3, reduceCtorEq] at h

theorem udpExchange_next_shape (net : UdpNet) (tr tr1 : List UdpEvent) (d p : Bytes)
    (h : udpExchange net tr d p = .next tr1) :
    ∃ R, tr1 = tr ++ ([.resolve d none, .dialOk d (tr.length + 1),
          .send (tr.length + 1) p none] ++ R)
      ∧ socketsOpened R = [] ∧ datagramsSent R = [] ∧ socketsClosed R = [tr.length + 1] := by
  cases h1 : net.resolveUDPAddr tr d with
  | some e1 => simp only [udpExchange, h1, reduceCtorEq] at h
  | none =>
    cases h2 : net.dialUDP (tr ++ [.resolve d none]) d with
    | some e2 => simp only [udpExchange, h1, h2, reduceCtorEq] at h
    | none =>
      cases h3 : net.write (tr ++ [UdpEvent.resolve d none] ++
          [UdpEvent.dialOk d (tr ++ [UdpEvent.resolve d none]).length])
          (tr ++ [UdpEvent.resolve d none]).length p with
      | some e3 => simp only [udpExchange, h1, h2, h3, reduceCtorEq] at h
      | none =>
        simp only [udpExchange, h1, h2, h3, Exchange.next.injEq] at h
        obtain ⟨R, hR, o1, o2, o3⟩ := udpReceive_shape net
          (tr ++ [UdpEvent.resolve d none] ++
            [UdpEvent.dialOk d (tr ++ [UdpEvent.resolve d none]).length] ++
            [UdpEvent.send (tr ++ [UdpEvent.resolve d none]).length p none])
          (tr ++ [UdpEvent.resolve d none]).length
        refine ⟨R, ?_, o1, o2, ?_⟩
        · rw [← h, hR]
          simp
        · rw [o3]
          simp

theorem framesBytes_cons (d p : Bytes) (fs : List (Bytes × Bytes)) (tail : Bytes) :
    framesBytes ((d, p) :: fs) ++ tail = frameBytes d p ++ (framesBytes fs ++ tail) := by
  simp [framesBytes]

theorem udpLoop_frames (net : UdpNet) (tail : Bytes) (step0 : FrameStep)
    (htail : decodeRequest tail = .failed step0) :
    ∀ (frames : List (Bytes × Bytes)) (fuel : Nat) (tr : List UdpEvent)
      (why : UdpExit) (rest : Bytes) (tr1 : List UdpEvent),
      (∀ f ∈ frames, f.1.length ≤ 255 ∧ f.2.length ≤ 65535) →
      udpLoop net fuel (framesBytes frames ++ tail) tr = some (why, rest, tr1) →
      failedCalls tr1 = [] →
      why = .readFailed step0 ∧ rest = tail ∧
      ∃ (socks : List Nat) (new : List UdpEvent), tr1 = tr ++ new
        ∧ socks.length = frames.length
        ∧ socketsOpened new = (frames.map Prod.fst).zip socks
        ∧ datagramsSent new = socks.zip (frames.map Prod.snd)
        ∧ socketsClosed new = socks
        ∧ (∀ s ∈ socks, tr.length < s)
        ∧ socks.Pairwise (fun a b => a < b) := by
  intro frames
  induction frames with
  | nil =>
    intro fuel tr why rest tr1 _ h _
    cases fuel with
    | zero => simp [udpLoop] at h
    | succ n =>
      simp only [framesBytes, List.map_nil, List.flatten_nil, List.nil_append, udpLoop, htail,
        Option.some.injEq, Prod.mk.injEq] at h
      obtain ⟨h1, h2, h3⟩ := h
      refine ⟨h1.symm, h2.symm, [], [], ?_, rfl, rfl, rfl, rfl, ?_, List.Pairwise.nil⟩
      · simp [h3]
      · intro s hs
        simp at hs
  | cons f fs ih =>
    intro fuel tr why rest tr1 hwf h hok
    obtain ⟨d, p⟩ := f
    have hdp := hwf (d, p) (List.mem_cons_self _ _)
    have hdec := decodeRequest_frameBytes d p (framesBytes fs ++ tail) hdp.1 hdp.2
    rw [framesBytes_cons] at h
    cases fuel with
    | zero => simp [udpLoop] at h
    | succ n =>
      cases hx : udpExchange net tr d p with
      | exit why2 tr2 =>
        simp only [udpLoop, hdec, hx, Option.some.injEq, Prod.mk.injEq] at h
        obtain ⟨-, -, h3⟩ := h
        rw [← h3] at hok
        exact absurd hok (udpExchange_exit_failed net tr tr2 d p why2 hx)
      | next tr2 =>
        simp only [udpLoop, hdec, hx] at h
        obtain ⟨R, hR, o1, o2, o3⟩ := udpExchange_next_shape net tr tr2 d p hx
        obtain ⟨a1, a2, socks, new, b1, b2, b3, b4, b5, b6, b7⟩ :=
          ih n tr2 why rest tr1 (fun g hg => hwf g (List.mem_cons_of_mem _ hg)) h hok
        have hlen : tr.length + 1 ≤ tr2.length := by
          rw [hR]
          simp only [List.length_append, List.length_cons]
          omega
        refine ⟨a1, a2, (tr.length + 1) :: socks,
          ([.resolve d none, .dialOk d (tr.length + 1), .send (tr.length + 1) p none] ++ R)
            ++ new, ?_, ?_, ?_, ?_, ?_, ?_, ?_⟩
        · rw [b1, hR, List.append_assoc]
        · simp [b2]
        · rw [socketsOpened_append, socketsOpened_append, o1, b3]
          simp [socketsOpened]
        · rw [datagramsSent_append, datagramsSent_append, o2, b4]
          simp [datagramsSent]
        · rw [socketsClosed_append, socketsClosed_append, o3, b5]
          simp [socketsClosed]
        · intro s hs
          rcases List.mem_cons.mp hs with hs | hs
          · rw [hs]; exact Nat.lt_succ_self _
          · exact Nat.lt_of_lt_of_le (Nat.lt_succ_self _) (Nat.le_trans hlen (Nat.le_of_lt (b6 s hs)))
        · refine List.Pairwise.cons ?_ b7
          intro s hs
          exact Nat.lt_of_le_of_lt hlen (b6 s hs)

/-- C11: the UDP loop over a whole stream.  For every list of `k ≥ 0`
well-formed requests `(destAddr_i, data_i)` and every stream (after the
`"__UDP__"` line) made of their `k` frames followed by a strict, possibly
empty, beginning `tail` of a frame and then EOF, if no resolve, socket open or
send of the run fails, then the relay terminates on a failed read with exactly
`tail` left, and closes the stream; it opened exactly `k` sockets, pairwise
distinct, the `i`-th to `destAddr_i`, sent exactly the `k` datagrams, `data_i`
on the `i`-th socket, in stream order, and closed each of those sockets;
nothing is sent for the incomplete tail. -/
theorem udpRelay_whole_stream (net : UdpNet) (frames : List (Bytes × Bytes)) (tail : Bytes)
    (hwf : ∀ f ∈ frames, f.1.length ≤ 255 ∧ f.2.length ≤ 65535)
    (htail : ∃ d p more, d.length ≤ 255 ∧ p.length ≤ 65535 ∧ more ≠ [] ∧
      tail ++ more = frameBytes d p)
    (hok : ∀ why rest tr, udpRelay net (framesBytes frames ++ tail) = some (why, rest, tr) →
      failedCalls tr = []) :
    ∃ (step : FrameStep) (socks : List Nat) (tr : List UdpEvent),
      udpRelay net (framesBytes frames ++ tail)
        = some (.readFailed step, tail, tr ++ [.streamClose])
      ∧ socks.length = frames.length
      ∧ socks.Nodup
      ∧ socketsOpened tr = (frames.map Prod.fst).zip socks
      ∧ datagramsSent tr = socks.zip (frames.map Prod.snd)
      ∧ socketsClosed tr = socks := by
  obtain ⟨d, p, more, hd, hp, hmore, hpre⟩ := htail
  obtain ⟨step0, hfail⟩ := decodeRequest_strict_part tail d p more hd hp hmore hpre
  obtain ⟨why, rest, tr1, hrun, -⟩ := udpLoop_total net
    ((framesBytes frames ++ tail).length + 1) (framesBytes frames ++ tail) []
    (Nat.lt_succ_self _)
  have hrel : udpRelay net (framesBytes frames ++ tail)
      = some (why, rest, tr1 ++ [.streamClose]) := by
    unfold udpRelay
    rw [hrun]
  have hnf : failedCalls tr1 = [] := by
    have h := hok why rest _ hrel
    rw [failedCalls_append] at h
    exact (List.append_eq_nil.mp h).1
  obtain ⟨a1, a2, socks, new, b1, b2, b3, b4, b5, -, b7⟩ :=
    udpLoop_frames net tail step0 hfail frames _ [] why rest tr1 hwf hrun hnf
  rw [List.nil_append] at b1
  subst a1 a2 b1
  refine ⟨step0, socks, tr1, hrel, b2, ?_, b3, b4, b5⟩
  exact b7.imp (fun h => Nat.ne_of_lt h)

/-- Witness for `udpRelay_whole_stream`: the frames of `("a:1", [7, 8])` and
`("b", [])` followed by the first two bytes of a frame. -/
theorem udpRelay_whole_stream_witness :
    ∃ (step : FrameStep) (socks : List Nat) (tr : List UdpEvent),
      udpRelay (scriptedNet [] exErr [5])
          (framesBytes [([97, 58, 49], [7, 8]), ([98], [])] ++ [3, 97])
        = some (.readFailed step, [3, 97], tr ++ [.streamClose])
      ∧ socks.length = [(([97, 58, 49] : Bytes), ([7, 8] : Bytes)), ([98], [])].length
      ∧ socks.Nodup
      ∧ socketsOpened tr
          = ([(([97, 58, 49] : Bytes), ([7, 8] : Bytes)), ([98], [])].map Prod.fst).zip socks
      ∧ datagramsSent tr
          = socks.zip ([(([97, 58, 49] : Bytes), ([7, 8] : Bytes)), ([98], [])].map Prod.snd)
      ∧ socketsClosed tr = socks :=
  udpRelay_whole_stream (scriptedNet [] exErr [5]) [([97, 58, 49], [7, 8]), ([98], [])] [3, 97]
    (by decide)
    ⟨[97, 58, 49], [7, 8], [58, 49, 0, 2, 7, 8], by decide, by decide, by decide, by decide⟩
    (by
      intro why rest tr h
      have key : (udpRelay (scriptedNet [] exErr [5])
          (framesBytes [([97, 58, 49], [7, 8]), ([98], [])] ++ [3, 97])).map
          (fun r => decide (failedCalls r.2.2 = [])) = some true := by decide
      rw [h] at key
      simpa using key)

end QuicProxy
